import Mathlib

/-!
Shallow embedding of the AreaCon library (src/AreaCon/areacon.h, src/AreaCon/areacon.cpp)
and proofs about it.

Modeling conventions, used consistently below:

- A C++ `double` is modeled as the exact real number type `ℝ`; floating-point rounding
  is not modeled.  Incremental accumulations such as `x0 += dx` performed by grid loops
  are therefore written in the equivalent closed form `minx + ii * dx`.
- The process-wide static `Point::Robustness_Constant` is threaded as an explicit
  parameter `eps` of every operation that reads it.
- The C++ default constructor `Point()` produces the sentinel point
  `(INFINITY, INFINITY)` (areacon.h line 65); `ℝ` has no infinity, so values that may
  be this sentinel are modeled as `Option Pt`, with `none` standing for the sentinel.
  Consequently the `isinf` vertex check of `Poly::InitializePoly` is vacuous in the
  model (every modeled coordinate is finite).
- C++ functions that `throw std::runtime_error` are modeled as `Except String`
  computations; the pure value computed on the non-throwing path is factored into a
  separate `...Val` definition where callers in the source only ever reach that path.
- `std::vector` indexing is modeled with `List.getD` (out-of-range access is undefined
  behavior in the source and never exercised by the properties below).
-/

namespace AreaCon

open Classical

noncomputable section

/-- Embedding of the `Point` class: an (x, y) pair of reals. -/
structure Pt where
  x : ℝ
  y : ℝ

/-- Embedding of `Point::Norm` : `sqrt(x*x + y*y)`. -/
def Norm (T : Pt) : ℝ := Real.sqrt (T.x * T.x + T.y * T.y)

/-- Embedding of `Point::AddPoints`. -/
def AddPoints (T1 T2 : Pt) : Pt := ⟨T1.x + T2.x, T1.y + T2.y⟩

/-- Embedding of `Point::FlipDirection` (negates both coordinates). -/
def FlipDirection (T : Pt) : Pt := ⟨-T.x, -T.y⟩

/-- Embedding of `Point::Mult` (scales both coordinates by `factor`). -/
def Mult (factor : ℝ) (T : Pt) : Pt := ⟨factor * T.x, factor * T.y⟩

/-- Embedding of `Point::IsEqual`: exact coordinatewise comparison with `==`. -/
def IsEqual (T1 T2 : Pt) : Bool :=
  if T1.x = T2.x ∧ T1.y = T2.y then true else false

/-- Embedding of `Point::Distance` : Euclidean distance. -/
def Distance (T1 T2 : Pt) : ℝ :=
  Real.sqrt ((T1.x - T2.x) * (T1.x - T2.x) + (T1.y - T2.y) * (T1.y - T2.y))

/-- Embedding of `Point::FindPointAlongLine`. -/
def FindPointAlongLine (T1 T2 : Pt) (distance : ℝ) : Pt :=
  ⟨T1.x + (T2.x - T1.x) * distance, T1.y + (T2.y - T1.y) * distance⟩

/-- Embedding of `Point::FindPerpDirection`: the zero vector when the two points
coincide, otherwise `((T2.y-T1.y)/d*Norm, (T1.x-T2.x)/d*Norm)` with `d` the distance. -/
def FindPerpDirection (T1 T2 : Pt) (N : ℝ) : Pt :=
  if Distance T1 T2 = 0 then ⟨0, 0⟩
  else ⟨(T2.y - T1.y) / Distance T1 T2 * N, (T1.x - T2.x) / Distance T1 T2 * N⟩

/-- Embedding of `Point::PerpDistanceToLine`, with its two robustness branches for
near-horizontal and near-vertical lines followed by the generic formula. -/
def PerpDistanceToLine (eps : ℝ) (T1 T2 T3 : Pt) : ℝ :=
  if |T2.y - T1.y| < eps then |T3.y - T2.y|
  else if |T2.x - T1.x| < eps then |T3.x - T2.x|
  else |(T2.y - T1.y) * T3.x - (T2.x - T1.x) * T3.y + T2.x * T1.y - T2.y * T1.x| /
    Distance T1 T2

/-- The `max_dist` accumulation of `Point::AreCollinear`: starts from
`Distance(T1,T2)` and replaces it by `Distance(T2,T3)` and then `Distance(T1,T3)`
whenever strictly larger. -/
def maxDist (T1 T2 T3 : Pt) : ℝ :=
  let m1 := Distance T1 T2
  let m2 := if Distance T2 T3 > m1 then Distance T2 T3 else m1
  if Distance T1 T3 > m2 then Distance T1 T3 else m2

/-- Embedding of `Point::AreCollinear`: relative perpendicular-distance test against
the robustness constant. -/
def AreCollinear (eps : ℝ) (T1 T2 T3 : Pt) : Bool :=
  if PerpDistanceToLine eps T1 T2 T3 / maxDist T1 T2 T3 < eps then true else false

/-- Embedding of `Point::AreBetween`: collinear, normalized projection in [0,1], and
matching x-displacement signs. -/
def AreBetween (eps : ℝ) (T1 T2 T3 : Pt) : Bool :=
  if AreCollinear eps T1 T2 T3 = false then false
  else
    let distance := Distance T3 T1 / Distance T2 T1
    if distance > 1 ∨ distance < 0 then false
    else if (T3.x - T1.x ≤ 0 ∧ T2.x - T1.x ≤ 0) ∨ (T3.x - T1.x ≥ 0 ∧ T2.x - T1.x ≥ 0)
      then true
    else false

/-- Embedding of the `Poly` class.  The C++ class caches its extrema
(minx/maxx/miny/maxy); here they are recomputed on demand by the functions below,
which agrees with the cache at every program point the properties below talk about
(the cache is refreshed by `InitializePoly` / `SetVertices` with extrema). -/
structure Poly where
  Vertices : List Pt

/-- Number of vertices (`Poly::GetNVertices` / the `NPoly` field). -/
def Poly.NPoly (P : Poly) : ℕ := P.Vertices.length

/-- The minimum-x scan of `Poly::InitializePoly` (starts from `INFINITY` and lowers;
for a nonempty vertex list this is the fold below; the empty-polygon value is never
consumed by the source, modeled as the junk value 0). -/
def Poly.minx (P : Poly) : ℝ :=
  match P.Vertices with
  | [] => 0
  | a :: l => l.foldl (fun m v => if v.x < m then v.x else m) a.x

/-- The maximum-x scan of `Poly::InitializePoly`. -/
def Poly.maxx (P : Poly) : ℝ :=
  match P.Vertices with
  | [] => 0
  | a :: l => l.foldl (fun m v => if v.x > m then v.x else m) a.x

/-- The minimum-y scan of `Poly::InitializePoly`. -/
def Poly.miny (P : Poly) : ℝ :=
  match P.Vertices with
  | [] => 0
  | a :: l => l.foldl (fun m v => if v.y < m then v.y else m) a.y

/-- The maximum-y scan of `Poly::InitializePoly`. -/
def Poly.maxy (P : Poly) : ℝ :=
  match P.Vertices with
  | [] => 0
  | a :: l => l.foldl (fun m v => if v.y > m then v.y else m) a.y

/-- Embedding of the validation performed by `Poly::InitializePoly` on a vertex list:
an empty list is accepted as the sentinel; otherwise the list must have at least 3
vertices, pairwise distinct under `Point::IsEqual`, with a non-degenerate bounding
box.  (The `isinf` coordinate check of the source is vacuous over `ℝ`.)  The checks
are listed in the order the source raises them. -/
def InitializePoly (V : List Pt) : Except String Unit :=
  if V = [] then Except.ok ()
  else if V.length < 3 then Except.error ("List of vertices must contain at least 3 points")
  else if ¬ List.Pairwise (fun a b => IsEqual a b = false) V then
    Except.error ("Polygon Vertices must all be distinct")
  else if Poly.minx ⟨V⟩ = Poly.maxx ⟨V⟩ ∨ Poly.miny ⟨V⟩ = Poly.maxy ⟨V⟩ then
    Except.error ("Polygon must have non-zero nominal area")
  else Except.ok ()

/-- Embedding of `Poly::SetVertices`: with `GetExtrema = true` it re-runs
`InitializePoly`; with `GetExtrema = false` it only rejects a nonempty list of fewer
than 3 vertices. -/
def SetVertices (V : List Pt) (GetExtrema : Bool) : Except String Unit :=
  if GetExtrema then InitializePoly V
  else if V ≠ [] ∧ V.length < 3 then
    Except.error ("List of vertices must contain at least 3 points")
  else Except.ok ()

/-- The parity-flip condition of one `pnpoly` loop iteration for edge `(p, q)` and
test point `T`: the edge straddles the horizontal line through `T`, the x-guard
holds, and the edge's x-intercept at height `T.y` lies strictly left of `T`. -/
def pnpolyCross (T p q : Pt) : Bool :=
  if ((p.y < T.y ∧ T.y ≤ q.y) ∨ (T.y ≤ p.y ∧ q.y < T.y)) ∧ (p.x ≤ T.x ∨ q.x ≤ T.x) then
    if p.x + (T.y - p.y) * (q.x - p.x) / (q.y - p.y) < T.x then true else false
  else false

/-- The loop of `Poly::pnpoly`: walks the vertex list with the previous vertex
threaded through, exiting with `true` as soon as the test point is `AreBetween` two
consecutive vertices, and otherwise toggling the parity bit on each crossing. -/
def pnpolyAux (eps : ℝ) (T : Pt) : Pt → List Pt → Bool → Bool
  | _, [], value => value
  | prev, v :: rest, value =>
    if AreBetween eps prev v T = true then true
    else pnpolyAux eps T v rest (if pnpolyCross T prev v = true then !value else value)

/-- Embedding of `Poly::pnpoly`: starts the walk with `prev` equal to the last
vertex.  The C++ function throws on an empty polygon; the model returns `false`
there, and every property below only applies it to nonempty polygons. -/
def pnpoly (eps : ℝ) (P : Poly) (T : Pt) : Bool :=
  match P.Vertices with
  | [] => false
  | v :: rest => pnpolyAux eps T (List.getLast (v :: rest) (List.cons_ne_nil v rest)) (v :: rest) false

/-- Embedding of the `Density` class state.  Derived state built by
`SetNewRegion`/`SetParameters`/`PreprocessIntegral` is carried as plain fields; the
per-cell integral vectors `Int`, `Intx`, `Inty` of the `Int_Params` member are named
`IntVec`, `IntxVec`, `IntyVec` to avoid clashing with the `Int` type. -/
structure Density where
  Region : Poly
  Nx : ℕ
  Ny : ℕ
  dx : ℝ
  dy : ℝ
  minx : ℝ
  miny : ℝ
  maxx : ℝ
  maxy : ℝ
  Volume_Lower_Bound : ℝ
  Values : List ℝ
  GridInRegion : List Bool
  IntVec : List ℝ
  IntxVec : List ℝ
  IntyVec : List ℝ

/-- Embedding of `Density::ConvertIndextoWorld`. -/
def ConvertIndextoWorld (D : Density) (ii : ℕ) : Pt :=
  ⟨D.minx + (ii / D.Ny) * D.dx, D.miny + (ii % D.Ny) * D.dy⟩

/-- Embedding of `Density::InterpolateValue` (bilinear interpolation in the enclosing
grid cell).  The C++ `(int)` casts truncate toward zero; at the interior points the
source evaluates this on they are nonnegative, where truncation equals the floor
taken here. -/
def InterpolateValue (D : Density) (Test : Pt) : ℝ :=
  let i : ℕ := Int.toNat ⌊(Test.x - D.minx) / D.dx⌋
  let j : ℕ := Int.toNat ⌊(Test.y - D.miny) / D.dy⌋
  let p : Pt := ConvertIndextoWorld D (i * D.Ny + j)
  let i1 : ℕ := if i = D.Nx - 1 then i else i + 1
  let xr : ℝ := if i = D.Nx - 1 then 0 else (Test.x - p.x) / D.dx
  let j1 : ℕ := if j = D.Ny - 1 then j else j + 1
  let ys : ℝ := if j = D.Ny - 1 then 0 else (Test.y - p.y) / D.dy
  let val00 := D.Values.getD (D.Ny * i + j) 0
  let val10 := D.Values.getD (D.Ny * i1 + j) 0
  let val01 := D.Values.getD (D.Ny * i + j1) 0
  let val11 := D.Values.getD (D.Ny * i1 + j1) 0
  let val0s := val00 + (val01 - val00) * ys
  let valr1 := val01 + (val11 - val01) * xr
  let val1s := val10 + (val11 - val10) * ys
  let valr0 := val00 + (val10 - val00) * xr
  (val0s + valr0 - val00) + xr * (val00 + val1s - val0s - val10) +
    ys * (val00 + valr0 - val01 - valr1) + xr * ys * (val01 + val10 - val00 - val11)

/-- Iteration count of the trapezoid loop of `Density::LineIntegral`
(`for (double ii = 0; ii < 1-spacing; ii += spacing)`): in exact arithmetic the loop
body runs once for every natural `k` with `k * spacing < 1 - spacing`, i.e.
`⌈(1-spacing)/spacing⌉` times. -/
def lineIntegralSteps (spacing : ℝ) : ℕ := ⌈(1 - spacing) / spacing⌉₊

/-- The value computed by `Density::LineIntegral` on its non-throwing path: the
trapezoid-rule sum of interpolated density values along the segment, scaled by
`spacing * Distance(p1,p2) / 2`.  (The loop reuses each `previous` sample; in exact
arithmetic that equals re-evaluating the interpolant, as written here.) -/
def lineIntegralVal (D : Density) (spacing : ℝ) (p1 p2 : Pt) : ℝ :=
  (∑ k ∈ Finset.range (lineIntegralSteps spacing),
      (InterpolateValue D (FindPointAlongLine p1 p2 (k * spacing)) +
        InterpolateValue D (FindPointAlongLine p1 p2 ((k + 1) * spacing)))) *
    spacing * Distance p1 p2 / 2

/-- Embedding of `Density::LineIntegral`, including its two guard exceptions. -/
def LineIntegral (D : Density) (spacing : ℝ) (p1 p2 : Pt) : Except String ℝ :=
  if D.Values = [] then Except.error ("Values have not been set!")
  else if spacing ≤ 0 ∨ spacing > 1 then
    Except.error ("Spacing cannot be less than or equal to 0 or greater than 1")
  else Except.ok (lineIntegralVal D spacing p1 p2)

/-- Pointwise update of the scratch grid-membership buffer (`GridInPolyTemp`). -/
def gridUpd (g : ℕ → Bool) (k : ℕ) (b : Bool) : ℕ → Bool :=
  fun n => if n = k then b else g n

/-- One inner-loop (`jj`) iteration of the grid walk shared by
`Density::CalculateWeightedArea` and `Density::CalculateCentroid`: classifies grid
point `(ii,jj)` against the test polygon and, when a full 2x2 block of grid points is
inside, accumulates the corresponding entry of `vec`. -/
def gridInnerStep (eps : ℝ) (D : Density) (T : Poly) (vec : List ℝ) (ii : ℕ)
    (st : (ℕ → Bool) × ℝ) (jj : ℕ) : (ℕ → Bool) × ℝ :=
  let x0 := D.minx + ii * D.dx
  let y0 := D.miny + jj * D.dy
  let idx := ii * D.Ny + jj
  if y0 < T.miny ∨ y0 > T.maxy then (gridUpd st.1 idx false, st.2)
  else if pnpoly eps T ⟨x0, y0⟩ = true then
    let g1 := gridUpd st.1 idx true
    if 0 < ii ∧ 0 < jj ∧
        (g1 idx = true ∧ g1 ((ii - 1) * D.Ny + jj) = true ∧
          g1 ((ii - 1) * D.Ny + jj - 1) = true ∧ g1 (ii * D.Ny + jj - 1) = true) then
      (g1, st.2 + vec.getD ((D.Ny - 1) * (ii - 1) + jj - 1) 0)
    else (g1, st.2)
  else (gridUpd st.1 idx false, st.2)

/-- The double grid loop shared verbatim by `Density::CalculateWeightedArea` (with
`vec = Integral.Int`) and `Density::CalculateCentroid` (run for `Integral.Intx` and
`Integral.Inty`; the source accumulates both in one pass, which equals two passes
because the scratch-buffer updates do not depend on the accumulated vector).  Columns
whose x-coordinate falls outside the test polygon's bounding box are wiped without
accumulation, exactly as in the source. -/
def gridAccum (eps : ℝ) (D : Density) (T : Poly) (vec : List ℝ) : ℝ :=
  ((List.range D.Nx).foldl
      (fun st (ii : ℕ) =>
        let x0 := D.minx + (ii : ℝ) * D.dx
        if x0 < T.minx ∨ x0 > T.maxx then
          ((List.range D.Ny).foldl (fun g jj => gridUpd g (ii * D.Ny + jj) false) st.1,
            st.2)
        else (List.range D.Ny).foldl (gridInnerStep eps D T vec ii) st)
      (fun k => D.GridInRegion.getD k false, (0 : ℝ))).2

/-- Embedding of `Density::CalculateWeightedArea`: unset values throw; an empty test
polygon returns the volume lower bound; otherwise the grid-accumulated sum, clamped
from below by the volume lower bound. -/
def CalculateWeightedArea (eps : ℝ) (D : Density) (Test : Poly) : Except String ℝ :=
  if D.Values = [] then Except.error ("Values have not been set!")
  else if Test.NPoly = 0 then Except.ok D.Volume_Lower_Bound
  else
    let sum := gridAccum eps D Test D.IntVec
    Except.ok (if sum ≥ D.Volume_Lower_Bound then sum else D.Volume_Lower_Bound)

/-- The value computed by `Density::CalculateCentroid` on its non-throwing path: an
empty test polygon yields the default `Point()` sentinel with infinite coordinates
(modeled as `none`); a volume at most the lower bound yields the test polygon's
bounding-box minimum corner; otherwise the first-moment sums divided by the volume. -/
def CalculateCentroidVal (eps : ℝ) (D : Density) (Test : Poly) (Volume : ℝ) :
    Option Pt :=
  if Test.NPoly = 0 then none
  else if Volume ≤ D.Volume_Lower_Bound then some ⟨Test.minx, Test.miny⟩
  else some ⟨gridAccum eps D Test D.IntxVec / Volume, gridAccum eps D Test D.IntyVec / Volume⟩

/-- Embedding of `Density::CalculateCentroid`, including the unset-values throw. -/
def CalculateCentroid (eps : ℝ) (D : Density) (Test : Poly) (Volume : ℝ) :
    Except String (Option Pt) :=
  if D.Values = [] then Except.error ("Values have not been set!")
  else Except.ok (CalculateCentroidVal eps D Test Volume)

/-- Embedding of `Partition::CheckParams` (with `Prior.SetVolumeLowerBound` already
applied, so `VLB = Alg_Params.Volume_Lower_Bound`).  The sequential per-entry throws
of the source loops are expressed as existential checks over the list, and the
`cout` diagnostic that accompanies renormalization is not modeled. -/
def CheckParams (NRegions : ℕ) (desired_area : List ℝ) (VLB : ℝ) :
    Except String (List ℝ) :=
  if NRegions ≠ 0 ∧ desired_area = [] then
    if VLB ≤ 1 / (NRegions : ℝ) then
      Except.ok (List.replicate NRegions (1 / (NRegions : ℝ)))
    else Except.error ("Volume_Lower_Bound is too large for the number of regions")
  else if desired_area.length ≠ NRegions then
    Except.error ("The size of desired_area must equal NRegions")
  else if ∃ a ∈ desired_area, a ≤ VLB then
    Except.error ("Entries of desired_area must be greater than Volume_Lower_Bound")
  else
    let sum := desired_area.sum
    if sum ≠ 1 then
      if ∃ a ∈ desired_area, a / sum < VLB then
        Except.error ("Normalized areas too small")
      else Except.ok (desired_area.map (fun a => a / sum))
    else Except.ok desired_area

/-- Embedding of `Partition::GradientStepCenter(volumes)` (the value-returning
overload): moves every center toward its region's density-weighted centroid by
`centers_step` and returns the new centers together with the accumulated `Error`,
which the source adds up as `Norm(centroid - center)` BEFORE scaling by the step.
Precondition of the source (not repeated here): the prior's values are set.  If some
region's centroid is the infinite `Point()` sentinel (empty covering polygon), the
C++ arithmetic is non-finite; the model returns `none` in that case. -/
def GradientStepCenter {n : ℕ} (eps : ℝ) (D : Density) (centers_step : ℝ)
    (centers : Fin n → Pt) (covering : Fin n → Poly) (volumes : Fin n → ℝ) :
    Option ((Fin n → Pt) × ℝ) :=
  if h : ∀ i, (CalculateCentroidVal eps D (covering i) (volumes i)).isSome = true then
    some
      (fun i =>
        let Center := (CalculateCentroidVal eps D (covering i) (volumes i)).get (h i)
        AddPoints (centers i) (Mult centers_step (AddPoints Center (FlipDirection (centers i)))),
        ∑ i, Norm (AddPoints ((CalculateCentroidVal eps D (covering i) (volumes i)).get (h i))
          (FlipDirection (centers i))))
  else none

/-- Final contents of the `dist` array of `Partition::GradientStepWeights`: cell
`(i,j)` with `i < j` is written as `Distance(Centers[i], Centers[j])` and mirrored to
`(j,i)`; the diagonal is zeroed. -/
def distArr {n : ℕ} (centers : Fin n → Pt) (i j : Fin n) : ℝ :=
  if i = j then 0
  else if i < j then Distance (centers i) (centers j)
  else Distance (centers j) (centers i)

/-- Final contents of the `InvAreaDist` array of `Partition::GradientStepWeights`:
cell `(i,j)` with `i < j` is `desired[j]/vol[j] - desired[i]/vol[i]`, and cell
`(j,i)` is written as its negation. -/
def InvAreaDistArr {n : ℕ} (desired volumes : Fin n → ℝ) (i j : Fin n) : ℝ :=
  if i = j then 0
  else if i < j then desired j / volumes j - desired i / volumes i
  else -(desired i / volumes i - desired j / volumes j)

/-- Final contents of the `integrals` array of `Partition::GradientStepWeights`:
cell `(i,j)` with `i < j` holds the density line integral along the shared edge
stored in the Delaunay graph when that edge is defined (the source tests
`!isinf(Graph[i][j][1].x)`), else 0; cell `(j,i)` mirrors it.  A graph entry is
modeled as `some (e0, e1)` exactly when the second stored endpoint is finite, and as
`none` when it is the infinite sentinel (which covers both the no-overlap and the
single-point cases, treated identically by the weight step). -/
def integralsArr {n : ℕ} (D : Density) (line_int_step : ℝ)
    (G : Fin n → Fin n → Option (Pt × Pt)) (i j : Fin n) : ℝ :=
  if i = j then 0
  else if i < j then
    match G i j with
    | some e => lineIntegralVal D line_int_step e.1 e.2
    | none => 0
  else
    match G j i with
    | some e => lineIntegralVal D line_int_step e.1 e.2
    | none => 0

/-- The `totals[i]` accumulation of `Partition::GradientStepWeights`: the inner loop
over `jj` from `i+1` upward followed by the loop over `jj` below `i`. -/
def totalsArr {n : ℕ} (D : Density) (line_int_step : ℝ) (centers : Fin n → Pt)
    (desired volumes : Fin n → ℝ) (G : Fin n → Fin n → Option (Pt × Pt)) (i : Fin n) : ℝ :=
  (∑ j ∈ Finset.Ioi i,
      InvAreaDistArr desired volumes i j * (1 / distArr centers i j) *
        integralsArr D line_int_step G i j) +
    ∑ j ∈ Finset.Iio i,
      InvAreaDistArr desired volumes i j * (1 / distArr centers i j) *
        integralsArr D line_int_step G i j

/-- Embedding of `Partition::GradientStepWeights`: each weight of a region with a
nonempty covering polygon moves by `-totals[i] * weights_step`; a region whose
covering polygon is empty instead gets the fixed bump `+ weights_step * 2`.
Precondition of the source (not repeated here): the prior's values are set and the
line-integral spacing is in (0,1], so no `LineIntegral` call throws. -/
def GradientStepWeights {n : ℕ} (D : Density) (line_int_step weights_step : ℝ)
    (centers : Fin n → Pt) (weights desired volumes : Fin n → ℝ)
    (covering : Fin n → Poly) (G : Fin n → Fin n → Option (Pt × Pt)) : Fin n → ℝ :=
  fun i =>
    if (covering i).NPoly = 0 then weights i + weights_step * 2
    else weights i + -totalsArr D line_int_step centers desired volumes G i * weights_step

/-- Concrete density field used as a witness input: a set value vector and a volume
lower bound of 1/100 (all other state irrelevant to the properties exercised). -/
def D0 : Density := ⟨⟨[]⟩, 0, 0, 0, 0, 0, 0, 0, 0, 1 / 100, [1], [], [], [], []⟩

/-- Concrete vertex list for C9: a valid triangle two of whose vertices are at
distance 1/100 of each other. -/
def V9 : List Pt := [⟨0, 0⟩, ⟨1, 0⟩, ⟨1, 1 / 100⟩]

/-- Concrete density field for the C2 failing input: values set, volume lower bound
3/5. -/
def D2 : Density := ⟨⟨[]⟩, 0, 0, 0, 0, 0, 0, 0, 0, 3 / 5, [1], [], [], [], []⟩

/-- Concrete covering polygon for the C2 failing input: the unit triangle. -/
def T2poly : Poly := ⟨[⟨0, 0⟩, ⟨1, 0⟩, ⟨0, 1⟩]⟩

/-- The unit square, used as a concrete valid polygon. -/
def sqV : List Pt := [⟨0, 0⟩, ⟨1, 0⟩, ⟨1, 1⟩, ⟨0, 1⟩]

/-- The data-model invariant claimed for `Poly` in C5: empty, or at least 3 pairwise
distinct vertices with a non-degenerate bounding box.  (The "finite coordinates" part
of the claim is automatic over `ℝ`.) -/
def PolyInvariant (V : List Pt) : Prop :=
  V = [] ∨
    (3 ≤ V.length ∧ List.Pairwise (fun a b : Pt => a ≠ b) V ∧
      Poly.minx ⟨V⟩ ≠ Poly.maxx ⟨V⟩ ∧ Poly.miny ⟨V⟩ ≠ Poly.maxy ⟨V⟩)

lemma Distance_comm (T1 T2 : Pt) : Distance T1 T2 = Distance T2 T1 := by
  unfold Distance; ring_nf

lemma Distance_nonneg (T1 T2 : Pt) : 0 ≤ Distance T1 T2 := Real.sqrt_nonneg _

lemma Distance_self (T : Pt) : Distance T T = 0 := by
  simp [Distance]

lemma Distance_eq_zero_iff (T1 T2 : Pt) : Distance T1 T2 = 0 ↔ T1.x = T2.x ∧ T1.y = T2.y := by
  unfold Distance
  rw [show (T1.x - T2.x) * (T1.x - T2.x) + (T1.y - T2.y) * (T1.y - T2.y)
      = (T1.x - T2.x) ^ 2 + (T1.y - T2.y) ^ 2 by ring]
  rw [Real.sqrt_eq_zero (by positivity)]
  constructor
  · intro h
    have hx : (T1.x - T2.x) ^ 2 = 0 ∧ (T1.y - T2.y) ^ 2 = 0 := by
      constructor <;> nlinarith [sq_nonneg (T1.x - T2.x), sq_nonneg (T1.y - T2.y)]
    constructor
    · have := pow_eq_zero_iff (n := 2) (by norm_num) |>.mp hx.1; linarith
    · have := pow_eq_zero_iff (n := 2) (by norm_num) |>.mp hx.2; linarith
  · rintro ⟨hx, hy⟩
    rw [hx, hy]; ring

lemma Distance_pos_of_ne (T1 T2 : Pt) (h : ¬(T1.x = T2.x ∧ T1.y = T2.y)) :
    0 < Distance T1 T2 := by
  rcases lt_or_eq_of_le (Distance_nonneg T1 T2) with hlt | heq
  · exact hlt
  · exact absurd ((Distance_eq_zero_iff T1 T2).mp heq.symm) h


/-- C3: with sample values set, `CalculateWeightedArea` returns exactly the volume
lower bound on the empty polygon; on a non-empty polygon it returns the grid-accumulated
per-cell integral sum when that sum is at least the volume lower bound and the volume
lower bound otherwise; hence every value it returns is at least the volume lower
bound. -/
theorem c3_weighted_area_clamp (eps : ℝ) (D : Density) (Test : Poly)
    (hv : D.Values ≠ []) :
    (Test.NPoly = 0 → CalculateWeightedArea eps D Test = Except.ok D.Volume_Lower_Bound) ∧
    (Test.NPoly ≠ 0 →
      CalculateWeightedArea eps D Test =
        Except.ok (if gridAccum eps D Test D.IntVec ≥ D.Volume_Lower_Bound
          then gridAccum eps D Test D.IntVec else D.Volume_Lower_Bound)) ∧
    (∀ r, CalculateWeightedArea eps D Test = Except.ok r → D.Volume_Lower_Bound ≤ r) := by
  unfold CalculateWeightedArea
  rw [if_neg hv]
  refine ⟨fun h0 => by rw [if_pos h0], fun h0 => by rw [if_neg h0], fun r hr => ?_⟩
  by_cases h0 : Test.NPoly = 0
  · rw [if_pos h0] at hr
    cases hr
    exact le_refl _
  · rw [if_neg h0] at hr
    cases hr
    by_cases hge : gridAccum eps D Test D.IntVec ≥ D.Volume_Lower_Bound
    · rw [if_pos hge]; exact hge
    · rw [if_neg hge]

/-- Witness for C3: on the concrete field `D0` and the empty polygon, the weighted
area is exactly the lower bound 1/100. -/
theorem c3_weighted_area_clamp_witness :
    CalculateWeightedArea 1 D0 ⟨[]⟩ = Except.ok ((1 : ℝ) / 100) := by
  have h := (c3_weighted_area_clamp 1 D0 ⟨[]⟩ (by simp [D0])).1 rfl
  simpa [D0] using h

/-- C9: `Point::IsEqual` is exact coordinatewise floating-point equality (its
definition never consults the robustness constant), so polygon initialization rejects
duplicates only when exactly identical: it accepts the triangle `V9` although two of
its distinct vertices are closer than the robustness constant `eps`. -/
theorem c9_isequal_exact (eps : ℝ) (heps : 1 / 100 < eps) :
    (∀ T1 T2 : Pt, IsEqual T1 T2 = true ↔ (T1.x = T2.x ∧ T1.y = T2.y)) ∧
    InitializePoly V9 = Except.ok () ∧
    Distance ⟨1, 0⟩ ⟨1, 1 / 100⟩ < eps ∧ (Pt.mk 1 0 ≠ Pt.mk 1 (1 / 100)) := by
  refine ⟨fun T1 T2 => ?_, ?_, ?_, ?_⟩
  · unfold IsEqual
    by_cases h : T1.x = T2.x ∧ T1.y = T2.y
    · simp [h]
    · simp [h]
  · unfold InitializePoly
    rw [if_neg (by simp [V9]), if_neg (by simp [V9])]
    have hpair : ¬¬List.Pairwise (fun a b => IsEqual a b = false) V9 := by
      rw [not_not]
      have hne : ∀ a b : Pt, ¬(a.x = b.x ∧ a.y = b.y) → IsEqual a b = false := by
        intro a b h
        unfold IsEqual
        simp [h]
      simp only [V9, List.pairwise_cons, List.mem_cons]
      refine ⟨?_, ?_, ?_⟩
      · rintro b hb
        rcases hb with rfl | hb
        · exact hne _ _ (by norm_num)
        · rcases hb with rfl | hb
          · exact hne _ _ (by norm_num)
          · simp at hb
      · rintro b hb
        rcases hb with rfl | hb
        · exact hne _ _ (by norm_num)
        · simp at hb
      · simp
    rw [if_neg hpair, if_neg]
    simp only [Poly.minx, Poly.maxx, Poly.miny, Poly.maxy, V9]
    norm_num
  · have : Distance ⟨1, 0⟩ ⟨1, 1 / 100⟩ = 1 / 100 := by
      unfold Distance
      rw [show ((1 : ℝ) - 1) * (1 - 1) + (0 - 1 / 100) * (0 - 1 / 100) = (1 / 100) ^ 2 by ring]
      rw [Real.sqrt_sq (by norm_num)]
    rw [this]; exact heps
  · intro h
    have := congrArg Pt.y h
    norm_num at this

/-- Witness for C9: the hypothesis is discharged at the concrete robustness constant
1/10. -/
theorem c9_isequal_exact_witness :
    InitializePoly V9 = Except.ok () ∧ Distance ⟨1, 0⟩ ⟨1, 1 / 100⟩ < 1 / 10 := by
  have h := c9_isequal_exact (1 / 10) (by norm_num)
  exact ⟨h.2.1, h.2.2.1⟩

/-- C10: `Point::FindPerpDirection` is total: it returns the zero vector when the two
points coincide (distance exactly 0), and otherwise a vector of Euclidean length
`|Norm|` perpendicular to the segment from `Test1` to `Test2`. -/
theorem c10_perp_direction_total (T1 T2 : Pt) (N : ℝ) :
    (Distance T1 T2 = 0 → FindPerpDirection T1 T2 N = ⟨0, 0⟩) ∧
    (Distance T1 T2 ≠ 0 →
      Norm (FindPerpDirection T1 T2 N) = |N| ∧
      (FindPerpDirection T1 T2 N).x * (T2.x - T1.x) +
        (FindPerpDirection T1 T2 N).y * (T2.y - T1.y) = 0) := by
  constructor
  · intro h0
    unfold FindPerpDirection
    rw [if_pos h0]
  · intro hd
    unfold FindPerpDirection
    rw [if_neg hd]
    constructor
    · unfold Norm
      have hS : Distance T1 T2 * Distance T1 T2 =
          (T1.x - T2.x) * (T1.x - T2.x) + (T1.y - T2.y) * (T1.y - T2.y) := by
        unfold Distance
        exact Real.mul_self_sqrt (add_nonneg (mul_self_nonneg _) (mul_self_nonneg _))
      have hSne : (T1.x - T2.x) * (T1.x - T2.x) + (T1.y - T2.y) * (T1.y - T2.y) ≠ 0 := by
        intro hz
        apply hd
        unfold Distance
        rw [hz, Real.sqrt_zero]
      rw [show (T2.y - T1.y) / Distance T1 T2 * N * ((T2.y - T1.y) / Distance T1 T2 * N) +
          (T1.x - T2.x) / Distance T1 T2 * N * ((T1.x - T2.x) / Distance T1 T2 * N) =
          N ^ 2 * (((T1.x - T2.x) * (T1.x - T2.x) + (T1.y - T2.y) * (T1.y - T2.y)) /
            (Distance T1 T2 * Distance T1 T2)) by ring]
      rw [hS, div_self hSne, mul_one, Real.sqrt_sq_eq_abs]
    · ring

/-- Witness for C10: at `T1 = (0,0)`, `T2 = (3,4)`, `N = 2`, the distance is 5 and the
perpendicular vector has length `|2|`. -/
theorem c10_perp_direction_total_witness :
    Norm (FindPerpDirection ⟨0, 0⟩ ⟨3, 4⟩ 2) = |(2 : ℝ)| := by
  have hd : Distance ⟨0, 0⟩ ⟨3, 4⟩ ≠ 0 := by
    unfold Distance
    rw [show ((0 : ℝ) - 3) * (0 - 3) + ((0 : ℝ) - 4) * (0 - 4) = 5 ^ 2 by norm_num]
    rw [Real.sqrt_sq (by norm_num)]
    norm_num
  exact ((c10_perp_direction_total ⟨0, 0⟩ ⟨3, 4⟩ 2).2 hd).1

/-- Counterexample for C6: with 2 regions, an omitted desired-area vector and
`Volume_Lower_Bound = 3/4 > 1/2`, `CheckParams` raises an error instead of
auto-filling the uniform fractions the claim promises. -/
theorem c6_checkparams_cex :
    CheckParams 2 [] (3 / 4) =
      Except.error ("Volume_Lower_Bound is too large for the number of regions") ∧
    CheckParams 2 [] (3 / 4) ≠ Except.ok (List.replicate 2 ((1 : ℝ) / 2)) := by
  have h : CheckParams 2 [] (3 / 4) =
      Except.error ("Volume_Lower_Bound is too large for the number of regions") := by
    unfold CheckParams
    rw [if_pos (by norm_num), if_neg (by push_cast; norm_num)]
  exact ⟨h, by rw [h]; intro hcontra; cases hcontra⟩

/-- C6 (amended): `CheckParams` with `NRegions > 0` auto-fills an empty desired-area
vector with uniform fractions ONLY when `Volume_Lower_Bound ≤ 1/NRegions`, raising an
error otherwise; a non-empty vector of the wrong size is an error; an entry at most
`Volume_Lower_Bound` is an error; a sum differing from 1 triggers renormalization by
the sum, with an error if a renormalized entry falls below `Volume_Lower_Bound`; a
sum of exactly 1 leaves the vector unchanged. -/
theorem c6_checkparams_behavior (N : ℕ) (da : List ℝ) (VLB : ℝ) (hN : 0 < N) :
    (da = [] → VLB ≤ 1 / (N : ℝ) →
      CheckParams N da VLB = Except.ok (List.replicate N (1 / (N : ℝ)))) ∧
    (da = [] → 1 / (N : ℝ) < VLB →
      CheckParams N da VLB =
        Except.error ("Volume_Lower_Bound is too large for the number of regions")) ∧
    (da ≠ [] → da.length ≠ N →
      CheckParams N da VLB = Except.error ("The size of desired_area must equal NRegions")) ∧
    (da ≠ [] → da.length = N → (∃ a ∈ da, a ≤ VLB) →
      CheckParams N da VLB =
        Except.error ("Entries of desired_area must be greater than Volume_Lower_Bound")) ∧
    (da ≠ [] → da.length = N → (∀ a ∈ da, VLB < a) → da.sum ≠ 1 →
      CheckParams N da VLB =
        (if ∃ a ∈ da, a / da.sum < VLB then Except.error ("Normalized areas too small")
          else Except.ok (da.map (fun a => a / da.sum)))) ∧
    (da ≠ [] → da.length = N → (∀ a ∈ da, VLB < a) → da.sum = 1 →
      CheckParams N da VLB = Except.ok da) := by
  refine ⟨?_, ?_, ?_, ?_, ?_, ?_⟩
  · intro hda hle
    unfold CheckParams
    rw [if_pos ⟨hN.ne', hda⟩, if_pos hle]
  · intro hda hlt
    unfold CheckParams
    rw [if_pos ⟨hN.ne', hda⟩, if_neg (not_le.mpr hlt)]
  · intro hda hlen
    unfold CheckParams
    rw [if_neg (by intro hcontra; exact hda hcontra.2), if_pos hlen]
  · intro hda hlen hex
    unfold CheckParams
    rw [if_neg (by intro hcontra; exact hda hcontra.2), if_neg (by rw [hlen]; exact fun h => h rfl),
      if_pos hex]
  · intro hda hlen hall hsum
    unfold CheckParams
    rw [if_neg (by intro hcontra; exact hda hcontra.2), if_neg (by rw [hlen]; exact fun h => h rfl),
      if_neg (by push_neg; exact hall), if_pos hsum]
  · intro hda hlen hall hsum
    unfold CheckParams
    rw [if_neg (by intro hcontra; exact hda hcontra.2), if_neg (by rw [hlen]; exact fun h => h rfl),
      if_neg (by push_neg; exact hall), if_neg (by rw [hsum]; exact fun h => h rfl)]

/-- Witness for C6: at `N = 2`, empty vector and `Volume_Lower_Bound = 1/100`, the
auto-fill branch produces the uniform fractions `[1/2, 1/2]`. -/
theorem c6_checkparams_behavior_witness :
    CheckParams 2 [] (1 / 100) = Except.ok [(1 : ℝ) / 2, 1 / 2] := by
  have h := (c6_checkparams_behavior 2 [] (1 / 100) (by norm_num)).1 rfl
    (by push_cast; norm_num)
  rw [h]
  norm_num [List.replicate]

/-- Counterexample for C5: `SetVertices` without extrema recomputation accepts a list
of three identical vertices, after which the claimed invariant fails. -/
theorem c5_poly_invariant_cex :
    SetVertices [⟨0, 0⟩, ⟨0, 0⟩, ⟨0, 0⟩] false = Except.ok () ∧
    ¬ PolyInvariant [⟨0, 0⟩, ⟨0, 0⟩, ⟨0, 0⟩] := by
  constructor
  · unfold SetVertices
    rw [if_neg (by simp)]
    rw [if_neg]
    intro hcontra
    simp at hcontra
  · intro hinv
    rcases hinv with hnil | ⟨_, hpair, _⟩
    · simp at hnil
    · rw [List.pairwise_cons] at hpair
      exact hpair.1 ⟨0, 0⟩ (by simp) rfl

/-- C5 (amended): construction (`Poly::InitializePoly`) and `SetVertices` WITH
extrema recomputation establish the full data-model invariant, but `SetVertices`
without extrema recomputation guarantees only that a non-empty list has at least 3
vertices. -/
theorem c5_poly_invariant (V : List Pt) :
    (InitializePoly V = Except.ok () → PolyInvariant V) ∧
    (SetVertices V true = Except.ok () → PolyInvariant V) ∧
    (SetVertices V false = Except.ok () → V = [] ∨ 3 ≤ V.length) := by
  have hinit : InitializePoly V = Except.ok () → PolyInvariant V := by
    intro h
    unfold InitializePoly at h
    by_cases hnil : V = []
    · exact Or.inl hnil
    · rw [if_neg hnil] at h
      right
      by_cases hlen : V.length < 3
      · rw [if_pos hlen] at h; cases h
      · rw [if_neg hlen] at h
        refine ⟨Nat.le_of_not_lt hlen, ?_, ?_⟩
        · by_cases hpair : List.Pairwise (fun a b => IsEqual a b = false) V
          · refine List.Pairwise.imp ?_ hpair
            intro a b hab
            intro hcontra
            rw [hcontra] at hab
            unfold IsEqual at hab
            rw [if_pos ⟨rfl, rfl⟩] at hab
            cases hab
          · rw [if_pos hpair] at h; cases h
        · by_cases hpair : List.Pairwise (fun a b => IsEqual a b = false) V
          · rw [if_neg (not_not.mpr hpair)] at h
            by_cases hbox : Poly.minx ⟨V⟩ = Poly.maxx ⟨V⟩ ∨ Poly.miny ⟨V⟩ = Poly.maxy ⟨V⟩
            · rw [if_pos hbox] at h; cases h
            · push_neg at hbox; exact hbox
          · rw [if_pos hpair] at h; cases h
  refine ⟨hinit, ?_, ?_⟩
  · intro h
    unfold SetVertices at h
    rw [if_pos rfl] at h
    exact hinit h
  · intro h
    unfold SetVertices at h
    rw [if_neg (by simp)] at h
    by_cases hc : V ≠ [] ∧ V.length < 3
    · rw [if_pos hc] at h; cases h
    · push_neg at hc
      by_cases hnil : V = []
      · exact Or.inl hnil
      · exact Or.inr (hc hnil)

/-- Witness for C5: the unit triangle passes `InitializePoly`, so by the amended
theorem it satisfies the invariant. -/
theorem c5_poly_invariant_witness : PolyInvariant [⟨0, 0⟩, ⟨1, 0⟩, ⟨0, 1⟩] := by
  apply (c5_poly_invariant [⟨0, 0⟩, ⟨1, 0⟩, ⟨0, 1⟩]).1
  unfold InitializePoly
  rw [if_neg (by simp), if_neg (by simp)]
  have hpair : ¬¬List.Pairwise (fun a b => IsEqual a b = false) [⟨0, 0⟩, ⟨1, 0⟩, ⟨0, 1⟩] := by
    rw [not_not]
    have hne : ∀ a b : Pt, ¬(a.x = b.x ∧ a.y = b.y) → IsEqual a b = false := by
      intro a b h
      unfold IsEqual
      simp [h]
    simp only [List.pairwise_cons, List.mem_cons]
    refine ⟨?_, ?_, ?_⟩
    · rintro b hb
      rcases hb with rfl | hb
      · exact hne _ _ (by norm_num)
      · rcases hb with rfl | hb
        · exact hne _ _ (by norm_num)
        · simp at hb
    · rintro b hb
      rcases hb with rfl | hb
      · exact hne _ _ (by norm_num)
      · simp at hb
    · simp
  rw [if_neg hpair, if_neg]
  simp only [Poly.minx, Poly.maxx, Poly.miny, Poly.maxy]
  norm_num

/-- Counterexample for C4: on the concrete field `D0` (values set) and the EMPTY
polygon, `CalculateCentroid` returns the infinite `Point()` sentinel (modeled
`none`), which is not the coordinate-origin point the claim promises. -/
theorem c4_centroid_cex :
    CalculateCentroid 1 D0 ⟨[]⟩ (1 / 2) = Except.ok none ∧
    (Except.ok none : Except String (Option Pt)) ≠ Except.ok (some ⟨0, 0⟩) := by
  constructor
  · unfold CalculateCentroid
    rw [if_neg (by simp [D0])]
    unfold CalculateCentroidVal
    rw [if_pos (show (Poly.mk ([] : List Pt)).NPoly = 0 from rfl)]
  · intro hcontra
    injection hcontra with hv
    cases hv

/-- C4 (amended): with sample values set, `CalculateCentroid` applied to the empty
polygon returns the undefined `Point()` sentinel whose coordinates are infinite
(modeled as `none`), NOT the coordinate origin; and applied to a non-empty polygon
with a supplied volume at most the volume lower bound it returns the polygon's
bounding-box minimum corner. -/
theorem c4_centroid_sentinel (eps : ℝ) (D : Density) (Test : Poly) (Volume : ℝ)
    (hv : D.Values ≠ []) :
    (Test.NPoly = 0 → CalculateCentroid eps D Test Volume = Except.ok none) ∧
    (Test.NPoly ≠ 0 → Volume ≤ D.Volume_Lower_Bound →
      CalculateCentroid eps D Test Volume = Except.ok (some ⟨Test.minx, Test.miny⟩)) := by
  constructor
  · intro h0
    unfold CalculateCentroid CalculateCentroidVal
    rw [if_neg hv, if_pos h0]
  · intro h0 hvol
    unfold CalculateCentroid CalculateCentroidVal
    rw [if_neg hv, if_neg h0, if_pos hvol]

/-- Witness for C4: on `D0` and the unit triangle with volume 1/200 (below the lower
bound 1/100), the centroid falls back to the bounding-box minimum corner (0,0). -/
theorem c4_centroid_sentinel_witness :
    CalculateCentroid 1 D0 ⟨[⟨0, 0⟩, ⟨1, 0⟩, ⟨0, 1⟩]⟩ (1 / 200) =
      Except.ok (some ⟨0, 0⟩) := by
  have h := (c4_centroid_sentinel 1 D0 ⟨[⟨0, 0⟩, ⟨1, 0⟩, ⟨0, 1⟩]⟩ (1 / 200)
    (by simp [D0])).2 (by simp [Poly.NPoly]) (by simp [D0]; norm_num)
  rw [h]
  have hx : Poly.minx ⟨[⟨0, 0⟩, ⟨1, 0⟩, ⟨0, 1⟩]⟩ = 0 := by
    simp only [Poly.minx]
    norm_num
  have hy : Poly.miny ⟨[⟨0, 0⟩, ⟨1, 0⟩, ⟨0, 1⟩]⟩ = 0 := by
    simp only [Poly.miny]
    norm_num
  rw [hx, hy]

lemma erase_eq_Iio_union_Ioi {n : ℕ} (i : Fin n) :
    Finset.univ.erase i = Finset.Iio i ∪ Finset.Ioi i := by
  ext j
  simp only [Finset.mem_erase, Finset.mem_univ, and_true, Finset.mem_union,
    Finset.mem_Iio, Finset.mem_Ioi]
  exact ne_iff_lt_or_gt

/-- C1: for every invocation of the weight update with volumes and a symmetric
adjacency graph, a region with a non-empty covering polygon gets
`weight - weights_step * sum`, the sum ranging over the regions `j ≠ i` whose shared
edge with `i` is defined in the graph, of
`(desired[j]/vol[j] - desired[i]/vol[i]) * (1/|center_i - center_j|) * lineIntegral`;
a region with an empty covering polygon instead gets `weight + 2 * weights_step`. -/
theorem c1_weight_update {n : ℕ} (D : Density) (line_int_step weights_step : ℝ)
    (centers : Fin n → Pt) (weights desired volumes : Fin n → ℝ)
    (covering : Fin n → Poly) (G : Fin n → Fin n → Option (Pt × Pt))
    (hsym : ∀ i j, G i j = G j i) (i : Fin n) :
    ((covering i).NPoly ≠ 0 →
      GradientStepWeights D line_int_step weights_step centers weights desired volumes
          covering G i =
        weights i - weights_step * ∑ j ∈ Finset.univ.erase i,
          (match G i j with
            | some e => (desired j / volumes j - desired i / volumes i) *
                (1 / Distance (centers i) (centers j)) *
                lineIntegralVal D line_int_step e.1 e.2
            | none => 0)) ∧
    ((covering i).NPoly = 0 →
      GradientStepWeights D line_int_step weights_step centers weights desired volumes
          covering G i = weights i + 2 * weights_step) := by
  constructor
  · intro hne
    unfold GradientStepWeights
    rw [if_neg hne]
    have hdisj : Disjoint (Finset.Iio i) (Finset.Ioi i) := by
      rw [Finset.disjoint_left]
      intro j hj hj'
      exact absurd (Finset.mem_Ioi.mp hj') (not_lt_of_gt (Finset.mem_Iio.mp hj))
    rw [erase_eq_Iio_union_Ioi i, Finset.sum_union hdisj]
    unfold totalsArr
    have hIoi : ∑ j ∈ Finset.Ioi i,
        InvAreaDistArr desired volumes i j * (1 / distArr centers i j) *
          integralsArr D line_int_step G i j =
        ∑ j ∈ Finset.Ioi i,
          (match G i j with
            | some e => (desired j / volumes j - desired i / volumes i) *
                (1 / Distance (centers i) (centers j)) *
                lineIntegralVal D line_int_step e.1 e.2
            | none => 0) := by
      refine Finset.sum_congr rfl fun j hj => ?_
      have hij : i < j := Finset.mem_Ioi.mp hj
      unfold InvAreaDistArr distArr integralsArr
      rw [if_neg hij.ne, if_pos hij, if_neg hij.ne, if_pos hij, if_neg hij.ne, if_pos hij]
      cases hG : G i j with
      | none => simp
      | some e => rfl
    have hIio : ∑ j ∈ Finset.Iio i,
        InvAreaDistArr desired volumes i j * (1 / distArr centers i j) *
          integralsArr D line_int_step G i j =
        ∑ j ∈ Finset.Iio i,
          (match G i j with
            | some e => (desired j / volumes j - desired i / volumes i) *
                (1 / Distance (centers i) (centers j)) *
                lineIntegralVal D line_int_step e.1 e.2
            | none => 0) := by
      refine Finset.sum_congr rfl fun j hj => ?_
      have hji : j < i := Finset.mem_Iio.mp hj
      unfold InvAreaDistArr distArr integralsArr
      rw [if_neg hji.ne', if_neg hji.asymm, if_neg hji.ne', if_neg hji.asymm,
        if_neg hji.ne', if_neg hji.asymm]
      rw [hsym j i, Distance_comm (centers j) (centers i)]
      cases hG : G i j with
      | none => simp
      | some e => ring
    rw [hIoi, hIio]
    ring
  · intro h0
    unfold GradientStepWeights
    rw [if_pos h0]
    ring

/-- Witness for C1: with a single region (so the neighbor sum is empty), a nonempty
covering triangle and weight 5, the weight step leaves the weight at 5. -/
theorem c1_weight_update_witness :
    GradientStepWeights D0 (1 / 10) (1 / 10) (fun _ : Fin 1 => ⟨0, 0⟩) (fun _ => 5)
      (fun _ => 1 / 2) (fun _ => 1 / 2) (fun _ => ⟨[⟨0, 0⟩, ⟨1, 0⟩, ⟨0, 1⟩]⟩)
      (fun _ _ => none) 0 = 5 := by
  have h := (c1_weight_update D0 (1 / 10) (1 / 10) (fun _ : Fin 1 => ⟨0, 0⟩) (fun _ => 5)
    (fun _ => 1 / 2) (fun _ => 1 / 2) (fun _ => ⟨[⟨0, 0⟩, ⟨1, 0⟩, ⟨0, 1⟩]⟩)
    (fun _ _ => none) (fun _ _ => rfl) 0).1 (by simp [Poly.NPoly])
  rw [h]
  rw [show (Finset.univ.erase (0 : Fin 1)) = (∅ : Finset (Fin 1)) from by decide]
  rw [Finset.sum_empty]
  ring

/-- C2 (code bug, evaluated at the failing input): with one region, center (3,4),
covering the unit triangle, volume 1/2 below the lower bound 3/5 (so the centroid
target is the corner (0,0)) and `centers_step = 1`, the center moves to (0,0) — a
squared displacement of 25 — but `GradientStepCenter` returns 5: it accumulates the
plain (unsquared) distance `Norm(centroid - center)`, contradicting its own header
documentation "The sum of the squares of the Euclidean distance moved by each of the
centers" (areacon.h lines 641-646). -/
theorem c2_center_metric_bug :
    GradientStepCenter 1 D2 1 (fun _ : Fin 1 => ⟨3, 4⟩) (fun _ => T2poly)
        (fun _ => 1 / 2) = some (fun _ => ⟨0, 0⟩, 5) ∧
    (∑ _i : Fin 1, Distance ⟨3, 4⟩ ⟨0, 0⟩ ^ 2) = 25 ∧ (5 : ℝ) ≠ 25 := by
  have hc : CalculateCentroidVal 1 D2 T2poly (1 / 2) = some ⟨0, 0⟩ := by
    unfold CalculateCentroidVal
    rw [if_neg (by simp [T2poly, Poly.NPoly]), if_pos (by simp [D2]; norm_num)]
    have hx : T2poly.minx = 0 := by
      simp only [T2poly, Poly.minx]
      norm_num
    have hy : T2poly.miny = 0 := by
      simp only [T2poly, Poly.miny]
      norm_num
    rw [hx, hy]
  refine ⟨?_, ?_, by norm_num⟩
  · unfold GradientStepCenter
    have hall : ∀ i : Fin 1,
        (CalculateCentroidVal 1 D2 ((fun _ => T2poly) i) ((fun _ : Fin 1 => (1 : ℝ) / 2) i)).isSome
          = true := by
      intro i
      show (CalculateCentroidVal 1 D2 T2poly (1 / 2)).isSome = true
      rw [hc]
      rfl
    rw [dif_pos hall]
    have hget : ∀ i : Fin 1,
        (CalculateCentroidVal 1 D2 ((fun _ => T2poly) i) ((fun _ : Fin 1 => (1 : ℝ) / 2) i)).get
          (hall i) = ⟨0, 0⟩ := by
      intro i
      simp only [hc, Option.get_some]
    refine congrArg some (Prod.ext ?_ ?_)
    · funext i
      show AddPoints ((fun _ : Fin 1 => (⟨3, 4⟩ : Pt)) i)
          (Mult 1 (AddPoints ((CalculateCentroidVal 1 D2 ((fun _ => T2poly) i)
            ((fun _ : Fin 1 => (1 : ℝ) / 2) i)).get (hall i))
            (FlipDirection ((fun _ : Fin 1 => (⟨3, 4⟩ : Pt)) i)))) = ⟨0, 0⟩
      rw [hget i]
      simp only [AddPoints, Mult, FlipDirection]
      norm_num
    · show (∑ i : Fin 1, Norm (AddPoints ((CalculateCentroidVal 1 D2 ((fun _ => T2poly) i)
          ((fun _ : Fin 1 => (1 : ℝ) / 2) i)).get (hall i))
          (FlipDirection ((fun _ : Fin 1 => (⟨3, 4⟩ : Pt)) i)))) = 5
      rw [Fin.sum_univ_one]
      rw [hget 0]
      simp only [AddPoints, FlipDirection, Norm]
      rw [show (0 : ℝ) + -3 = -3 by norm_num]
      rw [show (0 : ℝ) + -4 = -4 by norm_num]
      rw [show (-3 : ℝ) * -3 + -4 * -4 = 5 ^ 2 by norm_num]
      exact Real.sqrt_sq (by norm_num)
  · rw [Fin.sum_univ_one]
    have hd : Distance ⟨3, 4⟩ ⟨0, 0⟩ = 5 := by
      unfold Distance
      rw [show ((3 : ℝ) - 0) * (3 - 0) + ((4 : ℝ) - 0) * (4 - 0) = 5 ^ 2 by norm_num]
      exact Real.sqrt_sq (by norm_num)
    rw [hd]
    norm_num

lemma Distance_mult (k : ℝ) (hk : 0 ≤ k) (T1 T2 : Pt) :
    Distance (Mult k T1) (Mult k T2) = k * Distance T1 T2 := by
  unfold Distance Mult
  rw [show (k * T1.x - k * T2.x) * (k * T1.x - k * T2.x) +
      (k * T1.y - k * T2.y) * (k * T1.y - k * T2.y) =
      k ^ 2 * ((T1.x - T2.x) * (T1.x - T2.x) + (T1.y - T2.y) * (T1.y - T2.y)) by ring]
  rw [Real.sqrt_mul (sq_nonneg k), Real.sqrt_sq_eq_abs, abs_of_nonneg hk]

lemma ite_gt_eq_max (a b : ℝ) : (if b > a then b else a) = max a b := by
  rcases lt_or_le a b with h | h
  · rw [if_pos h, max_eq_right h.le]
  · rw [if_neg (not_lt.mpr h), max_eq_left h]

lemma maxDist_eq (T1 T2 T3 : Pt) :
    maxDist T1 T2 T3 =
      max (max (Distance T1 T2) (Distance T2 T3)) (Distance T1 T3) := by
  simp only [maxDist, ite_gt_eq_max]

lemma maxDist_swap12 (T1 T2 T3 : Pt) : maxDist T2 T1 T3 = maxDist T1 T2 T3 := by
  rw [maxDist_eq, maxDist_eq, Distance_comm T2 T1, Distance_comm T1 T3, Distance_comm T2 T3]
  exact sup_right_comm _ _ _

lemma maxDist_mult (k : ℝ) (hk : 0 < k) (T1 T2 T3 : Pt) :
    maxDist (Mult k T1) (Mult k T2) (Mult k T3) = k * maxDist T1 T2 T3 := by
  simp only [maxDist, Distance_mult k hk.le, gt_iff_lt, ← mul_ite, mul_lt_mul_left hk]

lemma perp_generic (eps : ℝ) (T1 T2 T3 : Pt) (hy : eps ≤ |T2.y - T1.y|)
    (hx : eps ≤ |T2.x - T1.x|) :
    PerpDistanceToLine eps T1 T2 T3 =
      |(T2.y - T1.y) * T3.x - (T2.x - T1.x) * T3.y + T2.x * T1.y - T2.y * T1.x| /
        Distance T1 T2 := by
  unfold PerpDistanceToLine
  rw [if_neg (not_lt.mpr hy), if_neg (not_lt.mpr hx)]

/-- Counterexample for C8: with robustness constant 1/10, swapping `Test1` and
`Test2` changes the result of `AreCollinear` at the concrete points `(0,0)`,
`(3/5,1/20)`, `(3/10,1/10)`: the near-horizontal robustness branch of
`PerpDistanceToLine` returns the vertical offset to `Test2`, which differs between
the two argument orders (1/20 versus 1/10), and only the former passes the relative
tolerance. -/
theorem c8_swap_cex :
    AreCollinear (1 / 10) ⟨0, 0⟩ ⟨3 / 5, 1 / 20⟩ ⟨3 / 10, 1 / 10⟩ = true ∧
    AreCollinear (1 / 10) ⟨3 / 5, 1 / 20⟩ ⟨0, 0⟩ ⟨3 / 10, 1 / 10⟩ = false := by
  have e12 : Distance ⟨0, 0⟩ ⟨3 / 5, 1 / 20⟩ = Real.sqrt (29 / 80) := by
    unfold Distance
    norm_num
  have e21 : Distance ⟨3 / 5, 1 / 20⟩ ⟨0, 0⟩ = Real.sqrt (29 / 80) := by
    unfold Distance
    norm_num
  have e23 : Distance ⟨3 / 5, 1 / 20⟩ ⟨3 / 10, 1 / 10⟩ = Real.sqrt (37 / 400) := by
    unfold Distance
    norm_num
  have e13 : Distance ⟨0, 0⟩ ⟨3 / 10, 1 / 10⟩ = Real.sqrt (1 / 10) := by
    unfold Distance
    norm_num
  have hm : maxDist ⟨0, 0⟩ ⟨3 / 5, 1 / 20⟩ ⟨3 / 10, 1 / 10⟩ = Real.sqrt (29 / 80) := by
    rw [maxDist_eq, e12, e23, e13]
    rw [max_eq_left (Real.sqrt_le_sqrt (by norm_num)),
      max_eq_left (Real.sqrt_le_sqrt (by norm_num))]
  have hm' : maxDist ⟨3 / 5, 1 / 20⟩ ⟨0, 0⟩ ⟨3 / 10, 1 / 10⟩ = Real.sqrt (29 / 80) := by
    rw [maxDist_swap12, hm]
  constructor
  · unfold AreCollinear
    have hperp : PerpDistanceToLine (1 / 10) ⟨0, 0⟩ ⟨3 / 5, 1 / 20⟩ ⟨3 / 10, 1 / 10⟩
        = 1 / 20 := by
      unfold PerpDistanceToLine
      rw [if_pos (by norm_num [abs_lt])]
      rw [show (Pt.mk (3 / 10) (1 / 10)).y - (Pt.mk (3 / 5) (1 / 20)).y = 1 / 20 from by
        norm_num]
      exact abs_of_pos (by norm_num)
    rw [hperp, hm, if_pos]
    rw [div_lt_iff₀ (Real.sqrt_pos.mpr (by norm_num))]
    rw [show (1 : ℝ) / 20 = 1 / 10 * (1 / 2) by norm_num]
    rw [mul_lt_mul_left (by norm_num : (0 : ℝ) < 1 / 10)]
    exact (Real.lt_sqrt (by norm_num)).mpr (by norm_num)
  · unfold AreCollinear
    have hperp : PerpDistanceToLine (1 / 10) ⟨3 / 5, 1 / 20⟩ ⟨0, 0⟩ ⟨3 / 10, 1 / 10⟩
        = 1 / 10 := by
      unfold PerpDistanceToLine
      rw [if_pos (by norm_num [abs_lt])]
      rw [show (Pt.mk (3 / 10) (1 / 10)).y - (Pt.mk 0 0).y = 1 / 10 from by norm_num]
      exact abs_of_pos (by norm_num)
    rw [hperp, hm', if_neg]
    rw [not_lt, le_div_iff₀ (Real.sqrt_pos.mpr (by norm_num))]
    have h1 : Real.sqrt (29 / 80) ≤ 1 := by
      rw [show (1 : ℝ) = Real.sqrt 1 from (Real.sqrt_one).symm]
      exact Real.sqrt_le_sqrt (by norm_num)
    nlinarith [Real.sqrt_nonneg (29 / 80 : ℝ)]

/-- C8 (amended): `Distance` scaling aside, the collinearity and between predicates
are invariant under scaling all three points by `k > 0` and `AreCollinear` under
swapping `Test1` and `Test2` PROVIDED `PerpDistanceToLine` takes its generic
(non-robustness) branch for both configurations, i.e. both coordinate gaps of the
base segment are at least the robustness constant before and after the
transformation.  (The counterexample shows invariance fails when a robustness branch
is taken, so the claim's unconditional statement does not hold.) -/
theorem c8_scale_swap_invariance (eps k : ℝ) (T1 T2 T3 : Pt) (hk : 0 < k)
    (hy : eps ≤ |T2.y - T1.y|) (hx : eps ≤ |T2.x - T1.x|)
    (hy' : eps ≤ |k * T2.y - k * T1.y|) (hx' : eps ≤ |k * T2.x - k * T1.x|) :
    AreCollinear eps (Mult k T1) (Mult k T2) (Mult k T3) = AreCollinear eps T1 T2 T3 ∧
    AreCollinear eps T2 T1 T3 = AreCollinear eps T1 T2 T3 ∧
    AreBetween eps (Mult k T1) (Mult k T2) (Mult k T3) = AreBetween eps T1 T2 T3 := by
  have hcol_scale :
      AreCollinear eps (Mult k T1) (Mult k T2) (Mult k T3) = AreCollinear eps T1 T2 T3 := by
    unfold AreCollinear
    rw [perp_generic eps T1 T2 T3 hy hx, perp_generic eps (Mult k T1) (Mult k T2) (Mult k T3)
      hy' hx']
    rw [show (Mult k T2).y - (Mult k T1).y = k * T2.y - k * T1.y from rfl,
      show (Mult k T2).x - (Mult k T1).x = k * T2.x - k * T1.x from rfl]
    rw [show (k * T2.y - k * T1.y) * (Mult k T3).x - (k * T2.x - k * T1.x) * (Mult k T3).y +
        (Mult k T2).x * (Mult k T1).y - (Mult k T2).y * (Mult k T1).x =
        k ^ 2 * ((T2.y - T1.y) * T3.x - (T2.x - T1.x) * T3.y + T2.x * T1.y - T2.y * T1.x)
        from by
      show (k * T2.y - k * T1.y) * (k * T3.x) - (k * T2.x - k * T1.x) * (k * T3.y) +
          k * T2.x * (k * T1.y) - k * T2.y * (k * T1.x) = _
      ring]
    rw [abs_mul, abs_of_nonneg (by positivity : (0 : ℝ) ≤ k ^ 2)]
    rw [Distance_mult k hk.le, maxDist_mult k hk]
    rw [show k ^ 2 * |(T2.y - T1.y) * T3.x - (T2.x - T1.x) * T3.y + T2.x * T1.y -
        T2.y * T1.x| = k * (k * |(T2.y - T1.y) * T3.x - (T2.x - T1.x) * T3.y +
        T2.x * T1.y - T2.y * T1.x|) from by ring]
    rw [mul_div_mul_left _ _ hk.ne']
    rw [mul_div_assoc, mul_div_mul_left _ _ hk.ne']
  refine ⟨hcol_scale, ?_, ?_⟩
  · unfold AreCollinear
    rw [perp_generic eps T1 T2 T3 hy hx,
      perp_generic eps T2 T1 T3 (by rw [abs_sub_comm]; exact hy)
        (by rw [abs_sub_comm]; exact hx)]
    rw [show (T1.y - T2.y) * T3.x - (T1.x - T2.x) * T3.y + T1.x * T2.y - T1.y * T2.x =
        -((T2.y - T1.y) * T3.x - (T2.x - T1.x) * T3.y + T2.x * T1.y - T2.y * T1.x)
        from by ring]
    rw [abs_neg, Distance_comm T2 T1, maxDist_swap12]
  · unfold AreBetween
    rw [hcol_scale]
    by_cases hcol : AreCollinear eps T1 T2 T3 = false
    · rw [if_pos hcol, if_pos hcol]
    · rw [if_neg hcol, if_neg hcol]
      have hr : Distance (Mult k T3) (Mult k T1) / Distance (Mult k T2) (Mult k T1) =
          Distance T3 T1 / Distance T2 T1 := by
        rw [Distance_mult k hk.le, Distance_mult k hk.le, mul_div_mul_left _ _ hk.ne']
      rw [hr]
      have hle : ∀ a b : ℝ, (k * a - k * b ≤ 0) ↔ (a - b ≤ 0) := by
        intro a b
        constructor <;> intro h <;> nlinarith
      have hge : ∀ a b : ℝ, (k * a - k * b ≥ 0) ↔ (a - b ≥ 0) := by
        intro a b
        constructor <;> intro h <;> nlinarith
      refine if_congr Iff.rfl rfl (if_congr ?_ rfl rfl)
      rw [show (Mult k T3).x = k * T3.x from rfl, show (Mult k T1).x = k * T1.x from rfl,
        show (Mult k T2).x = k * T2.x from rfl]
      rw [hle T3.x T1.x, hle T2.x T1.x, hge T3.x T1.x, hge T2.x T1.x]

/-- Witness for C8: the amended invariances hold at robustness constant 1/10, scale
factor 2, and the points (0,0), (1,1), (5,5), whose coordinate gaps are at least the
robustness constant before and after scaling. -/
theorem c8_scale_swap_invariance_witness :
    AreCollinear (1 / 10) ⟨1, 1⟩ ⟨0, 0⟩ ⟨5, 5⟩ = AreCollinear (1 / 10) ⟨0, 0⟩ ⟨1, 1⟩ ⟨5, 5⟩ ∧
    AreBetween (1 / 10) (Mult 2 ⟨0, 0⟩) (Mult 2 ⟨1, 1⟩) (Mult 2 ⟨5, 5⟩) =
      AreBetween (1 / 10) ⟨0, 0⟩ ⟨1, 1⟩ ⟨5, 5⟩ := by
  have h := c8_scale_swap_invariance (1 / 10) 2 ⟨0, 0⟩ ⟨1, 1⟩ ⟨5, 5⟩ (by norm_num)
    (by norm_num) (by norm_num) (by norm_num) (by norm_num)
  exact ⟨h.2.1, h.2.2⟩

lemma Pt.ext_of (a b : Pt) (hx : a.x = b.x) (hy : a.y = b.y) : a = b := by
  cases a; cases b; simp_all

lemma ne_coords_of_ne (a b : Pt) (h : a ≠ b) : ¬(a.x = b.x ∧ a.y = b.y) :=
  fun hc => h (Pt.ext_of a b hc.1 hc.2)

lemma initializePoly_ok_inv (V : List Pt) (h : InitializePoly V = Except.ok ()) :
    V = [] ∨ (3 ≤ V.length ∧ List.Pairwise (fun a b : Pt => a ≠ b) V ∧
      Poly.minx ⟨V⟩ ≠ Poly.maxx ⟨V⟩ ∧ Poly.miny ⟨V⟩ ≠ Poly.maxy ⟨V⟩) := by
  unfold InitializePoly at h
  by_cases hnil : V = []
  · exact Or.inl hnil
  · rw [if_neg hnil] at h
    right
    by_cases hlen : V.length < 3
    · rw [if_pos hlen] at h; cases h
    · rw [if_neg hlen] at h
      refine ⟨Nat.le_of_not_lt hlen, ?_, ?_⟩
      · by_cases hpair : List.Pairwise (fun a b => IsEqual a b = false) V
        · refine List.Pairwise.imp ?_ hpair
          intro a b hab
          intro hcontra
          rw [hcontra] at hab
          unfold IsEqual at hab
          rw [if_pos ⟨rfl, rfl⟩] at hab
          cases hab
        · rw [if_pos hpair] at h; cases h
      · by_cases hpair : List.Pairwise (fun a b => IsEqual a b = false) V
        · rw [if_neg (not_not.mpr hpair)] at h
          by_cases hbox : Poly.minx ⟨V⟩ = Poly.maxx ⟨V⟩ ∨ Poly.miny ⟨V⟩ = Poly.maxy ⟨V⟩
          · rw [if_pos hbox] at h; cases h
          · push_neg at hbox; exact hbox
        · rw [if_pos hpair] at h; cases h

lemma foldl_min_le (f : Pt → ℝ) :
    ∀ (l : List Pt) (a : ℝ),
      l.foldl (fun m v => if f v < m then f v else m) a ≤ a ∧
      ∀ v ∈ l, l.foldl (fun m v => if f v < m then f v else m) a ≤ f v := by
  intro l
  induction l with
  | nil => intro a; exact ⟨le_refl a, by simp⟩
  | cons w t ih =>
    intro a
    rw [List.foldl_cons]
    refine ⟨le_trans (ih _).1 ?_, ?_⟩
    · dsimp only
      split_ifs with hw
      · exact hw.le
      · exact le_refl a
    · intro v hv
      rcases List.mem_cons.mp hv with rfl | hv'
      · refine le_trans (ih _).1 ?_
        dsimp only
        split_ifs with hw
        · exact le_refl _
        · exact not_lt.mp hw
      · exact (ih _).2 v hv'

lemma foldl_max_ge (f : Pt → ℝ) :
    ∀ (l : List Pt) (a : ℝ),
      a ≤ l.foldl (fun m v => if f v > m then f v else m) a ∧
      ∀ v ∈ l, f v ≤ l.foldl (fun m v => if f v > m then f v else m) a := by
  intro l
  induction l with
  | nil => intro a; exact ⟨le_refl a, by simp⟩
  | cons w t ih =>
    intro a
    rw [List.foldl_cons]
    refine ⟨le_trans ?_ (ih _).1, ?_⟩
    · dsimp only
      split_ifs with hw
      · exact hw.le
      · exact le_refl a
    · intro v hv
      rcases List.mem_cons.mp hv with rfl | hv'
      · refine le_trans ?_ (ih _).1
        dsimp only
        split_ifs with hw
        · exact le_refl _
        · exact not_lt.mp hw
      · exact (ih _).2 v hv'

lemma minx_le_of_mem (V : List Pt) (v : Pt) (hv : v ∈ V) : Poly.minx ⟨V⟩ ≤ v.x := by
  cases V with
  | nil => cases hv
  | cons a l =>
    show l.foldl (fun m w => if w.x < m then w.x else m) a.x ≤ v.x
    rcases List.mem_cons.mp hv with rfl | hv'
    · exact (foldl_min_le Pt.x l v.x).1
    · exact (foldl_min_le Pt.x l a.x).2 v hv'

lemma le_maxx_of_mem (V : List Pt) (v : Pt) (hv : v ∈ V) : v.x ≤ Poly.maxx ⟨V⟩ := by
  cases V with
  | nil => cases hv
  | cons a l =>
    show v.x ≤ l.foldl (fun m w => if w.x > m then w.x else m) a.x
    rcases List.mem_cons.mp hv with rfl | hv'
    · exact (foldl_max_ge Pt.x l v.x).1
    · exact (foldl_max_ge Pt.x l a.x).2 v hv'

lemma miny_le_of_mem (V : List Pt) (v : Pt) (hv : v ∈ V) : Poly.miny ⟨V⟩ ≤ v.y := by
  cases V with
  | nil => cases hv
  | cons a l =>
    show l.foldl (fun m w => if w.y < m then w.y else m) a.y ≤ v.y
    rcases List.mem_cons.mp hv with rfl | hv'
    · exact (foldl_min_le Pt.y l v.y).1
    · exact (foldl_min_le Pt.y l a.y).2 v hv'

lemma le_maxy_of_mem (V : List Pt) (v : Pt) (hv : v ∈ V) : v.y ≤ Poly.maxy ⟨V⟩ := by
  cases V with
  | nil => cases hv
  | cons a l =>
    show v.y ≤ l.foldl (fun m w => if w.y > m then w.y else m) a.y
    rcases List.mem_cons.mp hv with rfl | hv'
    · exact (foldl_max_ge Pt.y l v.y).1
    · exact (foldl_max_ge Pt.y l a.y).2 v hv'

lemma AreBetween_vertex (eps : ℝ) (p v : Pt) (heps : 0 < eps) (hpv : p ≠ v) :
    AreBetween eps p v v = true := by
  have hco : ¬(p.x = v.x ∧ p.y = v.y) := ne_coords_of_ne p v hpv
  have hD : 0 < Distance p v := Distance_pos_of_ne p v hco
  have hperp : PerpDistanceToLine eps p v v = 0 := by
    unfold PerpDistanceToLine
    split_ifs with h1 h2
    · simp
    · simp
    · rw [show (v.y - p.y) * v.x - (v.x - p.x) * v.y + v.x * p.y - v.y * p.x = 0 by ring]
      simp
  have hcol : AreCollinear eps p v v = true := by
    unfold AreCollinear
    rw [hperp, zero_div]
    exact if_pos heps
  unfold AreBetween
  rw [hcol, if_neg (by simp)]
  have hD' : Distance v p ≠ 0 := by rw [Distance_comm]; exact hD.ne'
  simp only [div_self hD']
  rw [if_neg (by norm_num)]
  rcases le_total (v.x - p.x) 0 with h | h
  · rw [if_pos (Or.inl ⟨h, h⟩)]
  · rw [if_pos (Or.inr ⟨h, h⟩)]

lemma pnpolyAux_mem_true (eps : ℝ) (v : Pt) (heps : 0 < eps) :
    ∀ (rest : List Pt) (prev : Pt) (value : Bool),
      v ∈ rest → List.Pairwise (fun a b : Pt => a ≠ b) rest →
      (∀ w, rest = v :: w → prev ≠ v) →
      pnpolyAux eps v prev rest value = true := by
  intro rest
  induction rest with
  | nil => intro prev value hv _ _; cases hv
  | cons w t ih =>
    intro prev value hv hpair hhd
    show (if AreBetween eps prev w v = true then true
      else pnpolyAux eps v w t (if pnpolyCross v prev w = true then !value else value)) = true
    by_cases hb : AreBetween eps prev w v = true
    · rw [if_pos hb]
    · rcases List.mem_cons.mp hv with rfl | hv'
      · exact absurd (AreBetween_vertex eps prev v heps (hhd t rfl)) hb
      · rw [if_neg hb]
        refine ih w _ hv' (List.pairwise_cons.mp hpair).2 ?_
        intro w' _
        exact (List.pairwise_cons.mp hpair).1 v hv'

lemma pnpolyAux_no_flip (eps : ℝ) (T : Pt) :
    ∀ (rest : List Pt) (prev : Pt) (value : Bool),
      (∀ p q : Pt, (p, q) ∈ List.zip (prev :: rest) rest →
        AreBetween eps p q T = false ∧ pnpolyCross T p q = false) →
      pnpolyAux eps T prev rest value = value := by
  intro rest
  induction rest with
  | nil => intro prev value _; rfl
  | cons w t ih =>
    intro prev value h
    have hhead := h prev w (by rw [List.zip_cons_cons]; exact List.mem_cons_self _ _)
    show (if AreBetween eps prev w T = true then true
      else pnpolyAux eps T w t (if pnpolyCross T prev w = true then !value else value)) = value
    rw [hhead.1, if_neg (by simp), hhead.2, if_neg (by simp)]
    exact ih w value fun p q hpq =>
      h p q (by rw [List.zip_cons_cons]; exact List.mem_cons_of_mem _ hpq)

lemma xor_chain (v a b c : Bool) : ((v.xor (a.xor b)).xor (b.xor c)) = v.xor (a.xor c) := by
  cases v <;> cases a <;> cases b <;> cases c <;> rfl

lemma pnpolyAux_parity (eps : ℝ) (T : Pt) :
    ∀ (rest : List Pt) (prev : Pt) (value : Bool),
      (∀ p q : Pt, (p, q) ∈ List.zip (prev :: rest) rest → AreBetween eps p q T = false) →
      (∀ p q : Pt, (p, q) ∈ List.zip (prev :: rest) rest →
        pnpolyCross T p q = ((decide (p.y < T.y)).xor (decide (q.y < T.y)))) →
      pnpolyAux eps T prev rest value =
        value.xor ((decide (prev.y < T.y)).xor (decide ((rest.getLastD prev).y < T.y))) := by
  intro rest
  induction rest with
  | nil =>
    intro prev value _ _
    show value = value.xor ((decide (prev.y < T.y)).xor (decide (prev.y < T.y)))
    rw [Bool.xor_self, Bool.xor_false]
  | cons w t ih =>
    intro prev value hb hc
    have hmem : ((prev, w) : Pt × Pt) ∈ List.zip (prev :: w :: t) (w :: t) := by
      rw [List.zip_cons_cons]; exact List.mem_cons_self _ _
    show (if AreBetween eps prev w T = true then true
      else pnpolyAux eps T w t (if pnpolyCross T prev w = true then !value else value)) = _
    rw [hb prev w hmem, if_neg (by simp)]
    have hval : (if pnpolyCross T prev w = true then !value else value) =
        value.xor (pnpolyCross T prev w) := by
      cases pnpolyCross T prev w <;> simp
    rw [hval, hc prev w hmem]
    rw [ih w _
      (fun p q hpq => hb p q (by rw [List.zip_cons_cons]; exact List.mem_cons_of_mem _ hpq))
      (fun p q hpq => hc p q (by rw [List.zip_cons_cons]; exact List.mem_cons_of_mem _ hpq))]
    rw [List.getLastD_cons]
    exact xor_chain value _ _ _

lemma pnpolyCross_parity (T p q : Pt) (hp : p.x < T.x) (hq : q.x < T.x) :
    pnpolyCross T p q = ((decide (p.y < T.y)).xor (decide (q.y < T.y))) := by
  by_cases hpy : p.y < T.y <;> by_cases hqy : q.y < T.y
  · rw [decide_eq_true hpy, decide_eq_true hqy]
    show pnpolyCross T p q = false
    unfold pnpolyCross
    rw [if_neg]
    rintro ⟨hstr, _⟩
    rcases hstr with ⟨_, h2⟩ | ⟨h1, _⟩
    · exact absurd hqy (not_lt.mpr h2)
    · exact absurd hpy (not_lt.mpr h1)
  · rw [decide_eq_true hpy, decide_eq_false hqy]
    show pnpolyCross T p q = true
    unfold pnpolyCross
    rw [if_pos ⟨Or.inl ⟨hpy, not_lt.mp hqy⟩, Or.inl hp.le⟩]
    rw [if_pos]
    have hden : 0 < q.y - p.y := by
      have := not_lt.mp hqy
      linarith
    have hr0 : 0 ≤ (T.y - p.y) / (q.y - p.y) := div_nonneg (by linarith) hden.le
    have hr1 : (T.y - p.y) / (q.y - p.y) ≤ 1 := by
      rw [div_le_one hden]
      have := not_lt.mp hqy
      linarith
    have hid : p.x + (T.y - p.y) * (q.x - p.x) / (q.y - p.y) =
        p.x * (1 - (T.y - p.y) / (q.y - p.y)) + q.x * ((T.y - p.y) / (q.y - p.y)) := by
      field_simp
      ring
    rw [hid]
    have hTx : T.x * (1 - (T.y - p.y) / (q.y - p.y)) + T.x * ((T.y - p.y) / (q.y - p.y))
        = T.x := by ring
    rcases le_or_lt ((T.y - p.y) / (q.y - p.y)) (1 / 2) with hr | hr
    · have h1 : p.x * (1 - (T.y - p.y) / (q.y - p.y)) <
          T.x * (1 - (T.y - p.y) / (q.y - p.y)) :=
        mul_lt_mul_of_pos_right hp (by linarith)
      have h2 : q.x * ((T.y - p.y) / (q.y - p.y)) ≤ T.x * ((T.y - p.y) / (q.y - p.y)) :=
        mul_le_mul_of_nonneg_right hq.le hr0
      linarith
    · have h1 : p.x * (1 - (T.y - p.y) / (q.y - p.y)) ≤
          T.x * (1 - (T.y - p.y) / (q.y - p.y)) :=
        mul_le_mul_of_nonneg_right hp.le (by linarith)
      have h2 : q.x * ((T.y - p.y) / (q.y - p.y)) < T.x * ((T.y - p.y) / (q.y - p.y)) :=
        mul_lt_mul_of_pos_right hq (by linarith)
      linarith
  · rw [decide_eq_false hpy, decide_eq_true hqy]
    show pnpolyCross T p q = true
    unfold pnpolyCross
    rw [if_pos ⟨Or.inr ⟨not_lt.mp hpy, hqy⟩, Or.inl hp.le⟩]
    rw [if_pos]
    have hden : q.y - p.y < 0 := by
      have := not_lt.mp hpy
      linarith
    have hrw : (T.y - p.y) / (q.y - p.y) = (p.y - T.y) / (p.y - q.y) := by
      rw [show T.y - p.y = -(p.y - T.y) by ring, show q.y - p.y = -(p.y - q.y) by ring,
        neg_div_neg_eq]
    have hden' : 0 < p.y - q.y := by linarith
    have hr0 : 0 ≤ (T.y - p.y) / (q.y - p.y) := by
      rw [hrw]
      exact div_nonneg (by have := not_lt.mp hpy; linarith) hden'.le
    have hr1 : (T.y - p.y) / (q.y - p.y) ≤ 1 := by
      rw [hrw, div_le_one hden']
      linarith
    have hid : p.x + (T.y - p.y) * (q.x - p.x) / (q.y - p.y) =
        p.x * (1 - (T.y - p.y) / (q.y - p.y)) + q.x * ((T.y - p.y) / (q.y - p.y)) := by
      field_simp
      ring
    rw [hid]
    have hTx : T.x * (1 - (T.y - p.y) / (q.y - p.y)) + T.x * ((T.y - p.y) / (q.y - p.y))
        = T.x := by ring
    rcases le_or_lt ((T.y - p.y) / (q.y - p.y)) (1 / 2) with hr | hr
    · have h1 : p.x * (1 - (T.y - p.y) / (q.y - p.y)) <
          T.x * (1 - (T.y - p.y) / (q.y - p.y)) :=
        mul_lt_mul_of_pos_right hp (by linarith)
      have h2 : q.x * ((T.y - p.y) / (q.y - p.y)) ≤ T.x * ((T.y - p.y) / (q.y - p.y)) :=
        mul_le_mul_of_nonneg_right hq.le hr0
      linarith
    · have h1 : p.x * (1 - (T.y - p.y) / (q.y - p.y)) ≤
          T.x * (1 - (T.y - p.y) / (q.y - p.y)) :=
        mul_le_mul_of_nonneg_right hp.le (by linarith)
      have h2 : q.x * ((T.y - p.y) / (q.y - p.y)) < T.x * ((T.y - p.y) / (q.y - p.y)) :=
        mul_lt_mul_of_pos_right hq (by linarith)
      linarith
  · rw [decide_eq_false hpy, decide_eq_false hqy]
    show pnpolyCross T p q = false
    unfold pnpolyCross
    rw [if_neg]
    rintro ⟨hstr, _⟩
    rcases hstr with ⟨h1, _⟩ | ⟨_, h2⟩
    · exact hpy h1
    · exact hqy h2

/-- C7 (amended): for a valid (non-empty, initialized) polygon, `pnpoly` returns
`true` at every vertex; and it returns `false` at every point strictly outside the
axis-aligned bounding box PROVIDED no polygon edge's numerical between-test accepts
the point (the early-exit that, for a large robustness constant, can classify an
outside point as inside — see the counterexample). -/
theorem c7_pnpoly_vertex_outside (eps : ℝ) (V : List Pt) (heps : 0 < eps)
    (hval : InitializePoly V = Except.ok ()) (hne : V ≠ []) (T : Pt) :
    (∀ v ∈ V, pnpoly eps ⟨V⟩ v = true) ∧
    ((T.x < Poly.minx ⟨V⟩ ∨ Poly.maxx ⟨V⟩ < T.x ∨ T.y < Poly.miny ⟨V⟩ ∨
        Poly.maxy ⟨V⟩ < T.y) →
      (∀ p q : Pt, (p, q) ∈ List.zip (V.getLast hne :: V) V → AreBetween eps p q T = false) →
      pnpoly eps ⟨V⟩ T = false) := by
  rcases initializePoly_ok_inv V hval with hnil | ⟨hlen, hpair, _, _⟩
  · exact absurd hnil hne
  obtain ⟨a, l, rfl⟩ : ∃ a l, V = a :: l := by
    cases V with
    | nil => exact absurd rfl hne
    | cons a l => exact ⟨a, l, rfl⟩
  constructor
  · intro v hv
    show pnpolyAux eps v (List.getLast (a :: l) (List.cons_ne_nil a l)) (a :: l) false = true
    apply pnpolyAux_mem_true eps v heps (a :: l) _ false hv hpair
    intro w hw
    injection hw with h1 h2
    subst h1
    have hlne : l ≠ [] := by
      intro hc
      rw [hc] at hlen
      simp at hlen
    rw [List.getLast_cons hlne]
    have hmem := List.getLast_mem hlne
    exact ((List.pairwise_cons.mp hpair).1 _ hmem).symm
  · intro hout hnb
    show pnpolyAux eps T (List.getLast (a :: l) (List.cons_ne_nil a l)) (a :: l) false = false
    have hpvmem : List.getLast (a :: l) (List.cons_ne_nil a l) ∈ a :: l :=
      List.getLast_mem _
    have hmem_pairs : ∀ p q : Pt,
        (p, q) ∈ List.zip (List.getLast (a :: l) (List.cons_ne_nil a l) :: a :: l) (a :: l) →
        p ∈ a :: l ∧ q ∈ a :: l := by
      intro p q hpq
      have h1 := (List.of_mem_zip hpq).1
      have h2 := (List.of_mem_zip hpq).2
      rcases List.mem_cons.mp h1 with rfl | h1'
      · exact ⟨hpvmem, h2⟩
      · exact ⟨h1', h2⟩
    rcases hout with hx1 | hx2 | hy1 | hy2
    · apply pnpolyAux_no_flip
      intro p q hpq
      obtain ⟨hpmem, hqmem⟩ := hmem_pairs p q hpq
      refine ⟨hnb p q hpq, ?_⟩
      unfold pnpolyCross
      rw [if_neg]
      rintro ⟨_, hxc⟩
      rcases hxc with h | h
      · exact absurd h (not_le.mpr (lt_of_lt_of_le hx1 (minx_le_of_mem _ p hpmem)))
      · exact absurd h (not_le.mpr (lt_of_lt_of_le hx1 (minx_le_of_mem _ q hqmem)))
    · have hcross : ∀ p q : Pt,
          (p, q) ∈ List.zip (List.getLast (a :: l) (List.cons_ne_nil a l) :: a :: l) (a :: l) →
          pnpolyCross T p q = ((decide (p.y < T.y)).xor (decide (q.y < T.y))) := by
        intro p q hpq
        obtain ⟨hpmem, hqmem⟩ := hmem_pairs p q hpq
        exact pnpolyCross_parity T p q (lt_of_le_of_lt (le_maxx_of_mem _ p hpmem) hx2)
          (lt_of_le_of_lt (le_maxx_of_mem _ q hqmem) hx2)
      rw [pnpolyAux_parity eps T (a :: l) (List.getLast (a :: l) (List.cons_ne_nil a l)) false
        hnb hcross]
      rw [show (a :: l).getLastD (List.getLast (a :: l) (List.cons_ne_nil a l)) =
        List.getLast (a :: l) (List.cons_ne_nil a l) from rfl]
      rw [Bool.xor_self]
      rfl
    · apply pnpolyAux_no_flip
      intro p q hpq
      obtain ⟨hpmem, hqmem⟩ := hmem_pairs p q hpq
      refine ⟨hnb p q hpq, ?_⟩
      unfold pnpolyCross
      rw [if_neg]
      rintro ⟨hstr, _⟩
      rcases hstr with ⟨h1, _⟩ | ⟨_, h2⟩
      · exact absurd h1 (not_lt.mpr (lt_of_lt_of_le hy1 (miny_le_of_mem _ p hpmem)).le)
      · exact absurd h2 (not_lt.mpr (lt_of_lt_of_le hy1 (miny_le_of_mem _ q hqmem)).le)
    · apply pnpolyAux_no_flip
      intro p q hpq
      obtain ⟨hpmem, hqmem⟩ := hmem_pairs p q hpq
      refine ⟨hnb p q hpq, ?_⟩
      unfold pnpolyCross
      rw [if_neg]
      rintro ⟨hstr, _⟩
      rcases hstr with ⟨_, h2⟩ | ⟨h1, _⟩
      · exact absurd h2 (not_le.mpr (lt_of_le_of_lt (le_maxy_of_mem _ q hqmem) hy2))
      · exact absurd h1 (not_le.mpr (lt_of_le_of_lt (le_maxy_of_mem _ p hpmem) hy2))

lemma IsEqual_eq_false_iff (a b : Pt) : IsEqual a b = false ↔ ¬(a.x = b.x ∧ a.y = b.y) := by
  unfold IsEqual
  by_cases h : a.x = b.x ∧ a.y = b.y
  · simp [h]
  · simp [h]

lemma sqV_ok : InitializePoly sqV = Except.ok () := by
  unfold InitializePoly
  rw [if_neg (by simp [sqV]), if_neg (by simp [sqV])]
  rw [if_neg, if_neg]
  · simp only [sqV, Poly.minx, Poly.maxx, Poly.miny, Poly.maxy]
    norm_num
  · rw [not_not]
    simp only [sqV]
    refine List.Pairwise.cons (fun b hb => ?_) (List.Pairwise.cons (fun b hb => ?_)
      (List.Pairwise.cons (fun b hb => ?_) (List.pairwise_singleton _ _)))
    all_goals rw [IsEqual_eq_false_iff]
    all_goals fin_cases hb <;> norm_num

lemma sq541_pos : (0 : ℝ) < Real.sqrt (541 / 400) := Real.sqrt_pos.mpr (by norm_num)

lemma sq541_gt_one : (1 : ℝ) < Real.sqrt (541 / 400) :=
  (Real.lt_sqrt (by norm_num)).mpr (by norm_num)

lemma sq541_gt : (21 / 20 : ℝ) < Real.sqrt (541 / 400) :=
  (Real.lt_sqrt (by norm_num)).mpr (by norm_num)

lemma sq101_le_one : Real.sqrt (101 / 400) ≤ 1 := by
  rw [show (1 : ℝ) = Real.sqrt 1 from Real.sqrt_one.symm]
  exact Real.sqrt_le_sqrt (by norm_num)

/-- Counterexample for C7: with robustness constant 1, the point `(21/20, 1/2)` lies
strictly to the right of the unit square's bounding box (`maxx = 1 < 21/20`), yet
`pnpoly` classifies it as inside: the between-test early-exit fires on the right
edge because the tolerance accepts a point 1/20 away from it. -/
theorem c7_pnpoly_cex :
    InitializePoly sqV = Except.ok () ∧
    Poly.maxx ⟨sqV⟩ < (21 / 20 : ℝ) ∧
    pnpoly 1 ⟨sqV⟩ ⟨21 / 20, 1 / 2⟩ = true := by
  have eB2 : Distance ⟨0, 0⟩ ⟨0, 1⟩ = 1 := by
    unfold Distance
    norm_num [Real.sqrt_one]
  have eB1 : Distance ⟨21 / 20, 1 / 2⟩ ⟨0, 1⟩ = Real.sqrt (541 / 400) := by
    unfold Distance
    norm_num
  have eC1 : Distance ⟨0, 1⟩ ⟨0, 0⟩ = 1 := by
    unfold Distance
    norm_num [Real.sqrt_one]
  have eC2 : Distance ⟨0, 0⟩ ⟨21 / 20, 1 / 2⟩ = Real.sqrt (541 / 400) := by
    unfold Distance
    norm_num
  have eC3 : Distance ⟨0, 1⟩ ⟨21 / 20, 1 / 2⟩ = Real.sqrt (541 / 400) := by
    unfold Distance
    norm_num
  have eD1 : Distance ⟨0, 0⟩ ⟨1, 0⟩ = 1 := by
    unfold Distance
    norm_num [Real.sqrt_one]
  have eD2 : Distance ⟨1, 0⟩ ⟨21 / 20, 1 / 2⟩ = Real.sqrt (101 / 400) := by
    unfold Distance
    norm_num
  have eD3 : Distance ⟨21 / 20, 1 / 2⟩ ⟨0, 0⟩ = Real.sqrt (541 / 400) := by
    unfold Distance
    norm_num
  have eE1 : Distance ⟨1, 0⟩ ⟨1, 1⟩ = 1 := by
    unfold Distance
    norm_num [Real.sqrt_one]
  have eE2 : Distance ⟨1, 1⟩ ⟨21 / 20, 1 / 2⟩ = Real.sqrt (101 / 400) := by
    unfold Distance
    norm_num
  have eE4 : Distance ⟨21 / 20, 1 / 2⟩ ⟨1, 0⟩ = Real.sqrt (101 / 400) := by
    unfold Distance
    norm_num
  have eE5 : Distance ⟨1, 1⟩ ⟨1, 0⟩ = 1 := by
    unfold Distance
    norm_num [Real.sqrt_one]
  have eD1sym : Distance ⟨1, 0⟩ ⟨0, 0⟩ = 1 := by
    unfold Distance
    norm_num [Real.sqrt_one]
  have hcol1 : AreCollinear 1 ⟨0, 1⟩ ⟨0, 0⟩ ⟨21 / 20, 1 / 2⟩ = true := by
    unfold AreCollinear
    have hperp : PerpDistanceToLine 1 ⟨0, 1⟩ ⟨0, 0⟩ ⟨21 / 20, 1 / 2⟩ = 21 / 20 := by
      unfold PerpDistanceToLine
      rw [if_neg (by norm_num), if_pos (by norm_num)]
      rw [show (Pt.mk (21 / 20 : ℝ) (1 / 2)).x - (Pt.mk (0 : ℝ) 0).x = 21 / 20 from by
        norm_num]
      exact abs_of_pos (by norm_num)
    have hmax : maxDist ⟨0, 1⟩ ⟨0, 0⟩ ⟨21 / 20, 1 / 2⟩ = Real.sqrt (541 / 400) := by
      rw [maxDist_eq, eC1, eC2, eC3]
      rw [max_eq_right sq541_gt_one.le, max_self]
    rw [hperp, hmax, if_pos ((div_lt_one sq541_pos).mpr sq541_gt)]
  have hb1 : AreBetween 1 ⟨0, 1⟩ ⟨0, 0⟩ ⟨21 / 20, 1 / 2⟩ = false := by
    unfold AreBetween
    rw [hcol1, if_neg (by simp)]
    simp only [eB1, eB2, div_one]
    rw [if_pos (Or.inl sq541_gt_one)]
  have hc1 : pnpolyCross ⟨21 / 20, 1 / 2⟩ ⟨0, 1⟩ ⟨0, 0⟩ = true := by
    unfold pnpolyCross
    rw [if_pos ⟨Or.inr ⟨by norm_num, by norm_num⟩, Or.inl (by norm_num)⟩,
      if_pos (by norm_num)]
  have hcol2 : AreCollinear 1 ⟨0, 0⟩ ⟨1, 0⟩ ⟨21 / 20, 1 / 2⟩ = true := by
    unfold AreCollinear
    have hperp : PerpDistanceToLine 1 ⟨0, 0⟩ ⟨1, 0⟩ ⟨21 / 20, 1 / 2⟩ = 1 / 2 := by
      unfold PerpDistanceToLine
      rw [if_pos (by norm_num)]
      rw [show (Pt.mk (21 / 20 : ℝ) (1 / 2)).y - (Pt.mk (1 : ℝ) 0).y = 1 / 2 from by
        norm_num]
      exact abs_of_pos (by norm_num)
    have hmax : maxDist ⟨0, 0⟩ ⟨1, 0⟩ ⟨21 / 20, 1 / 2⟩ = Real.sqrt (541 / 400) := by
      rw [maxDist_eq, eD1, eD2, eC2]
      rw [max_eq_left sq101_le_one, max_eq_right sq541_gt_one.le]
    rw [hperp, hmax, if_pos ((div_lt_one sq541_pos).mpr (by linarith [sq541_gt_one]))]
  have hb2 : AreBetween 1 ⟨0, 0⟩ ⟨1, 0⟩ ⟨21 / 20, 1 / 2⟩ = false := by
    unfold AreBetween
    rw [hcol2, if_neg (by simp)]
    simp only [eD3, eD1sym, div_one]
    rw [if_pos (Or.inl sq541_gt_one)]
  have hc2 : pnpolyCross ⟨21 / 20, 1 / 2⟩ ⟨0, 0⟩ ⟨1, 0⟩ = false := by
    unfold pnpolyCross
    rw [if_neg]
    rintro ⟨hstr, _⟩
    rcases hstr with ⟨_, h⟩ | ⟨h, _⟩ <;> norm_num at h
  have hcol3 : AreCollinear 1 ⟨1, 0⟩ ⟨1, 1⟩ ⟨21 / 20, 1 / 2⟩ = true := by
    unfold AreCollinear
    have hperp : PerpDistanceToLine 1 ⟨1, 0⟩ ⟨1, 1⟩ ⟨21 / 20, 1 / 2⟩ = 1 / 20 := by
      unfold PerpDistanceToLine
      rw [if_neg (by norm_num), if_pos (by norm_num)]
      rw [show (Pt.mk (21 / 20 : ℝ) (1 / 2)).x - (Pt.mk (1 : ℝ) 1).x = 1 / 20 from by
        norm_num]
      exact abs_of_pos (by norm_num)
    have hmax : maxDist ⟨1, 0⟩ ⟨1, 1⟩ ⟨21 / 20, 1 / 2⟩ = 1 := by
      rw [maxDist_eq, eE1, eE2, eD2]
      rw [max_eq_left sq101_le_one, max_eq_left sq101_le_one]
    rw [hperp, hmax, if_pos (by norm_num)]
  have hb3 : AreBetween 1 ⟨1, 0⟩ ⟨1, 1⟩ ⟨21 / 20, 1 / 2⟩ = true := by
    unfold AreBetween
    rw [hcol3, if_neg (by simp)]
    simp only [eE4, eE5, div_one]
    rw [if_neg, if_pos (Or.inr ⟨by norm_num, by norm_num⟩)]
    rintro (h | h)
    · exact absurd h (not_lt.mpr sq101_le_one)
    · exact absurd h (not_lt.mpr (Real.sqrt_nonneg _))
  refine ⟨sqV_ok, ?_, ?_⟩
  · show (Poly.maxx ⟨sqV⟩ : ℝ) < 21 / 20
    simp only [sqV, Poly.maxx]
    norm_num
  · show pnpolyAux 1 ⟨21 / 20, 1 / 2⟩ ⟨0, 1⟩ [⟨0, 0⟩, ⟨1, 0⟩, ⟨1, 1⟩, ⟨0, 1⟩] false = true
    show (if AreBetween 1 ⟨0, 1⟩ ⟨0, 0⟩ ⟨21 / 20, 1 / 2⟩ = true then true
      else pnpolyAux 1 ⟨21 / 20, 1 / 2⟩ ⟨0, 0⟩ [⟨1, 0⟩, ⟨1, 1⟩, ⟨0, 1⟩]
        (if pnpolyCross ⟨21 / 20, 1 / 2⟩ ⟨0, 1⟩ ⟨0, 0⟩ = true then !false else false)) = true
    rw [hb1, if_neg (by simp), hc1, if_pos rfl]
    show (if AreBetween 1 ⟨0, 0⟩ ⟨1, 0⟩ ⟨21 / 20, 1 / 2⟩ = true then true
      else pnpolyAux 1 ⟨21 / 20, 1 / 2⟩ ⟨1, 0⟩ [⟨1, 1⟩, ⟨0, 1⟩]
        (if pnpolyCross ⟨21 / 20, 1 / 2⟩ ⟨0, 0⟩ ⟨1, 0⟩ = true then !(!false) else !false)) = true
    rw [hb2, if_neg (by simp), hc2, if_neg (by simp)]
    show (if AreBetween 1 ⟨1, 0⟩ ⟨1, 1⟩ ⟨21 / 20, 1 / 2⟩ = true then true
      else pnpolyAux 1 ⟨21 / 20, 1 / 2⟩ ⟨1, 1⟩ [⟨0, 1⟩]
        (if pnpolyCross ⟨21 / 20, 1 / 2⟩ ⟨1, 0⟩ ⟨1, 1⟩ = true then !(!false) else !false)) = true
    rw [hb3, if_pos rfl]

lemma sq17q_pos : (0 : ℝ) < Real.sqrt (17 / 4) := Real.sqrt_pos.mpr (by norm_num)

lemma sq5q_pos : (0 : ℝ) < Real.sqrt (5 / 4) := Real.sqrt_pos.mpr (by norm_num)

lemma sq17q_ge_one : (1 : ℝ) ≤ Real.sqrt (17 / 4) :=
  ((Real.lt_sqrt (by norm_num)).mpr (by norm_num)).le

lemma sq5q_ge_one : (1 : ℝ) ≤ Real.sqrt (5 / 4) :=
  ((Real.lt_sqrt (by norm_num)).mpr (by norm_num)).le

lemma sq5q_le_sq17q : Real.sqrt (5 / 4) ≤ Real.sqrt (17 / 4) :=
  Real.sqrt_le_sqrt (by norm_num)

lemma sq17q_le_three : Real.sqrt (17 / 4) ≤ 3 := by
  rw [show (3 : ℝ) = Real.sqrt 9 from by
    rw [show (9 : ℝ) = 3 ^ 2 by norm_num, Real.sqrt_sq (by norm_num)]]
  exact Real.sqrt_le_sqrt (by norm_num)

lemma sq5q_le_three : Real.sqrt (5 / 4) ≤ 3 := by
  rw [show (3 : ℝ) = Real.sqrt 9 from by
    rw [show (9 : ℝ) = 3 ^ 2 by norm_num, Real.sqrt_sq (by norm_num)]]
  exact Real.sqrt_le_sqrt (by norm_num)

/-- Witness for C7: with the small robustness constant 1/1000, the unit square's own
vertex (0,0) tests inside, and the point (2, 1/2) strictly right of the bounding box
tests outside (each edge's between-test rejects it). -/
theorem c7_pnpoly_vertex_outside_witness :
    pnpoly (1 / 1000) ⟨sqV⟩ ⟨0, 0⟩ = true ∧
    pnpoly (1 / 1000) ⟨sqV⟩ ⟨2, 1 / 2⟩ = false := by
  have f2 : Distance ⟨0, 0⟩ ⟨2, 1 / 2⟩ = Real.sqrt (17 / 4) := by
    unfold Distance
    norm_num
  have f3 : Distance ⟨0, 1⟩ ⟨2, 1 / 2⟩ = Real.sqrt (17 / 4) := by
    unfold Distance
    norm_num
  have f5 : Distance ⟨1, 0⟩ ⟨2, 1 / 2⟩ = Real.sqrt (5 / 4) := by
    unfold Distance
    norm_num
  have f7 : Distance ⟨1, 1⟩ ⟨2, 1 / 2⟩ = Real.sqrt (5 / 4) := by
    unfold Distance
    norm_num
  have g1 : Distance ⟨0, 1⟩ ⟨0, 0⟩ = 1 := by
    unfold Distance
    norm_num [Real.sqrt_one]
  have g2 : Distance ⟨0, 0⟩ ⟨1, 0⟩ = 1 := by
    unfold Distance
    norm_num [Real.sqrt_one]
  have g3 : Distance ⟨1, 0⟩ ⟨1, 1⟩ = 1 := by
    unfold Distance
    norm_num [Real.sqrt_one]
  have g4 : Distance ⟨1, 1⟩ ⟨0, 1⟩ = 1 := by
    unfold Distance
    norm_num [Real.sqrt_one]
  have ncol1 : AreCollinear (1 / 1000) ⟨0, 1⟩ ⟨0, 0⟩ ⟨2, 1 / 2⟩ = false := by
    unfold AreCollinear
    have hperp : PerpDistanceToLine (1 / 1000) ⟨0, 1⟩ ⟨0, 0⟩ ⟨2, 1 / 2⟩ = 2 := by
      unfold PerpDistanceToLine
      rw [if_neg (by norm_num), if_pos (by norm_num)]
      rw [show (Pt.mk (2 : ℝ) (1 / 2)).x - (Pt.mk (0 : ℝ) 0).x = 2 from by norm_num]
      exact abs_of_pos (by norm_num)
    have hmax : maxDist ⟨0, 1⟩ ⟨0, 0⟩ ⟨2, 1 / 2⟩ = Real.sqrt (17 / 4) := by
      rw [maxDist_eq, g1, f2, f3]
      rw [max_eq_right sq17q_ge_one, max_self]
    rw [hperp, hmax, if_neg]
    rw [not_lt, le_div_iff₀ sq17q_pos]
    linarith [sq17q_le_three]
  have ncol2 : AreCollinear (1 / 1000) ⟨0, 0⟩ ⟨1, 0⟩ ⟨2, 1 / 2⟩ = false := by
    unfold AreCollinear
    have hperp : PerpDistanceToLine (1 / 1000) ⟨0, 0⟩ ⟨1, 0⟩ ⟨2, 1 / 2⟩ = 1 / 2 := by
      unfold PerpDistanceToLine
      rw [if_pos (by norm_num)]
      rw [show (Pt.mk (2 : ℝ) (1 / 2)).y - (Pt.mk (1 : ℝ) 0).y = 1 / 2 from by norm_num]
      exact abs_of_pos (by norm_num)
    have hmax : maxDist ⟨0, 0⟩ ⟨1, 0⟩ ⟨2, 1 / 2⟩ = Real.sqrt (17 / 4) := by
      rw [maxDist_eq, g2, f5, f2]
      rw [max_eq_right sq5q_ge_one, max_eq_right sq5q_le_sq17q]
    rw [hperp, hmax, if_neg]
    rw [not_lt, le_div_iff₀ sq17q_pos]
    linarith [sq17q_le_three]
  have ncol3 : AreCollinear (1 / 1000) ⟨1, 0⟩ ⟨1, 1⟩ ⟨2, 1 / 2⟩ = false := by
    unfold AreCollinear
    have hperp : PerpDistanceToLine (1 / 1000) ⟨1, 0⟩ ⟨1, 1⟩ ⟨2, 1 / 2⟩ = 1 := by
      unfold PerpDistanceToLine
      rw [if_neg (by norm_num), if_pos (by norm_num)]
      rw [show (Pt.mk (2 : ℝ) (1 / 2)).x - (Pt.mk (1 : ℝ) 1).x = 1 from by norm_num]
      exact abs_of_pos (by norm_num)
    have hmax : maxDist ⟨1, 0⟩ ⟨1, 1⟩ ⟨2, 1 / 2⟩ = Real.sqrt (5 / 4) := by
      rw [maxDist_eq, g3, f7, f5]
      rw [max_eq_right sq5q_ge_one, max_self]
    rw [hperp, hmax, if_neg]
    rw [not_lt, le_div_iff₀ sq5q_pos]
    linarith [sq5q_le_three]
  have ncol4 : AreCollinear (1 / 1000) ⟨1, 1⟩ ⟨0, 1⟩ ⟨2, 1 / 2⟩ = false := by
    unfold AreCollinear
    have hperp : PerpDistanceToLine (1 / 1000) ⟨1, 1⟩ ⟨0, 1⟩ ⟨2, 1 / 2⟩ = 1 / 2 := by
      unfold PerpDistanceToLine
      rw [if_pos (by norm_num)]
      rw [show (Pt.mk (2 : ℝ) (1 / 2)).y - (Pt.mk (0 : ℝ) 1).y = -(1 / 2) from by norm_num]
      rw [abs_neg]
      exact abs_of_pos (by norm_num)
    have hmax : maxDist ⟨1, 1⟩ ⟨0, 1⟩ ⟨2, 1 / 2⟩ = Real.sqrt (17 / 4) := by
      rw [maxDist_eq, g4, f3, f7]
      rw [max_eq_right sq17q_ge_one, max_eq_left sq5q_le_sq17q]
    rw [hperp, hmax, if_neg]
    rw [not_lt, le_div_iff₀ sq17q_pos]
    linarith [sq17q_le_three]
  have hsqne : sqV ≠ [] := by simp [sqV]
  have h := c7_pnpoly_vertex_outside (1 / 1000) sqV (by norm_num) sqV_ok hsqne ⟨2, 1 / 2⟩
  constructor
  · exact h.1 ⟨0, 0⟩ (by simp [sqV])
  · apply h.2
    · refine Or.inr (Or.inl ?_)
      show Poly.maxx ⟨sqV⟩ < (Pt.mk (2 : ℝ) (1 / 2)).x
      simp only [sqV, Poly.maxx]
      norm_num
    · intro p q hpq
      have hzip : List.zip (sqV.getLast hsqne :: sqV) sqV =
          [((⟨0, 1⟩ : Pt), (⟨0, 0⟩ : Pt)), (⟨0, 0⟩, ⟨1, 0⟩), (⟨1, 0⟩, ⟨1, 1⟩),
            (⟨1, 1⟩, ⟨0, 1⟩)] := rfl
      rw [hzip] at hpq
      simp only [List.mem_cons, List.not_mem_nil, or_false, Prod.mk.injEq] at hpq
      rcases hpq with ⟨rfl, rfl⟩ | ⟨rfl, rfl⟩ | ⟨rfl, rfl⟩ | ⟨rfl, rfl⟩
      · unfold AreBetween
        rw [ncol1, if_pos rfl]
      · unfold AreBetween
        rw [ncol2, if_pos rfl]
      · unfold AreBetween
        rw [ncol3, if_pos rfl]
      · unfold AreBetween
        rw [ncol4, if_pos rfl]

end

end AreaCon
